import Mathlib

/-!
# Verification of the WxCraft METAR/TAF decoding engine

A shallow embedding of the decoding core of the WxCraft repository
(`decoders.go`, `parsers.go`, `definitions.go`, and the `processRemarks`
remarks decoder of `metar.go`), together with proofs and refutations of the
specification claims about it.

Conventions of the embedding:
* Go strings are modelled as `List Char` (`Str`).  All the decoder's string
  operations (`strings.Fields`, `strings.TrimSpace`, `strings.HasPrefix`,
  `strings.Contains`, slicing, …) are defined below on that representation.
* Go `time.Time` values are modelled as minutes since the Unix epoch
  (an `Int`), with `time.Date`'s field normalisation and the proleptic
  Gregorian calendar made explicit (`daysFromCivil`, `civilFromDays`).
  `time.Now()` is made an explicit parameter `GoNow` (year/month/day),
  mirroring the only three components the decoder reads from it.
* The anchored regular expressions of `definitions.go` are hand-compiled to
  decidable matchers on `Str`; each matcher is named after its regex.
* `strconv.Atoi` is modelled by `goAtoi` (sign, digits, int64 range check);
  the decoder's discarded-error idiom `v, _ := strconv.Atoi(s)` becomes
  `(goAtoi s).getD 0`, matching Go's zero result on error.
* Go `float64` values reaching decoded records (`METAR.Pressure`) are
  modelled as rationals; the only float operations performed on them by the
  decoder (`float64(n)` and `float64(n)/100.0` for small `n`) are exact at
  the precision observed by every claim.
-/

set_option maxRecDepth 10000

/-- Go strings, modelled as lists of characters. -/
abbrev Str := List Char

/-- Literal helper: the character list of a Lean string literal. -/
def str (s : String) : Str := s.data

/-- `unicode.IsSpace` (the Unicode White_Space property), as used by
`strings.Fields` and `strings.TrimSpace`. -/
def isSpaceGo (c : Char) : Bool :=
  let n := c.toNat
  (9 ≤ n && n ≤ 13) || n == 32 || n == 0x85 || n == 0xA0 || n == 0x1680 ||
  (0x2000 ≤ n && n ≤ 0x200A) || n == 0x2028 || n == 0x2029 ||
  n == 0x202F || n == 0x205F || n == 0x3000

/-- The character class `\s` of Go's `regexp` package (`[\t\n\f\r ]`),
used by the whitespace-collapsing `regexp.MustCompile("\\s+")` call in
`DecodeTAF`. -/
def isSpaceRe (c : Char) : Bool :=
  let n := c.toNat
  n == 9 || n == 10 || n == 12 || n == 13 || n == 32

theorem isSpaceGo_of_isSpaceRe {c : Char} (h : isSpaceRe c = true) :
    isSpaceGo c = true := by
  simp only [isSpaceRe, isSpaceGo] at *
  rcases Nat.lt_or_ge c.toNat 14 with h14 | h14 <;> simp_all <;> omega

/-- Accumulator-passing worker for `strings.Fields`. -/
def fieldsGo : Str → Str → List Str
  | [], acc => if acc = [] then [] else [acc.reverse]
  | c :: r, acc =>
      if isSpaceGo c then
        if acc = [] then fieldsGo r [] else acc.reverse :: fieldsGo r []
      else fieldsGo r (c :: acc)

/-- `strings.Fields`: split around runs of white space, dropping empties. -/
def goFields (l : Str) : List Str := fieldsGo l []

/-- `strings.TrimSpace`: drop leading and trailing white space. -/
def goTrimSpace (l : Str) : Str :=
  ((l.dropWhile isSpaceGo).reverse.dropWhile isSpaceGo).reverse

/-- Worker for the `regexp.MustCompile("\\s+").ReplaceAllString(s, " ")`
call of `DecodeTAF`: replace every maximal run of `\s` characters by a
single space.  The flag records whether the previous character belonged to
a run that has already emitted its space. -/
def collapseWs : Str → Bool → Str
  | [], _ => []
  | c :: r, inRun =>
      if isSpaceRe c then
        if inRun then collapseWs r true else ' ' :: collapseWs r true
      else c :: collapseWs r false

/-- `cleanedRaw` of `DecodeTAF`: trim, then collapse interior whitespace. -/
def cleanRaw (l : Str) : Str := collapseWs (goTrimSpace l) false

/-- Decimal digit test (all the decoder's digit classes are ASCII). -/
def isDigit (c : Char) : Bool := c.isDigit

/-- Numeric value of a digit character. -/
def digitVal (c : Char) : Nat := c.toNat - '0'.toNat

/-- Value of a digit string (most significant first). -/
def natOfDigits (l : Str) : Nat := l.foldl (fun acc c => 10 * acc + digitVal c) 0

/-- The sign-free body of `strconv.Atoi`: one or more digits, int64 range
check. -/
def atoiCore (neg : Bool) (ds : Str) : Option Int :=
  if ds = [] then none
  else if ds.all isDigit then
    let v : Int := if neg then -(natOfDigits ds : Int) else (natOfDigits ds : Int)
    if v < -(2 ^ 63) || 2 ^ 63 - 1 < v then none else some v
  else none

/-- `strconv.Atoi`: optional sign, one or more digits, int64 range check.
Returns `none` exactly when Go returns a non-nil error. -/
def goAtoi (s : Str) : Option Int :=
  match s with
  | '+' :: r => atoiCore false r
  | '-' :: r => atoiCore true r
  | r => atoiCore false r

/-- Go's `v, _ := strconv.Atoi(s)` idiom: the value, or `0` on error. -/
def goAtoiD (s : Str) : Int := (goAtoi s).getD 0

/-- Decimal digits of a natural number (used to model `fmt` verbs). -/
def natChars (n : Nat) : Str :=
  (Nat.toDigits 10 n)

/-- `fmt`'s `%d` for a Go `int`. -/
def intChars (z : Int) : Str :=
  if z < 0 then '-' :: natChars z.natAbs else natChars z.natAbs

/-- `fmt`'s `%.1f` for a value that is exactly `tenths / 10`, with the
sign rendered separately (capturing Go's printing of IEEE negative zero). -/
def fmt1f (neg : Bool) (tenths : Nat) : Str :=
  (if neg then ['-'] else []) ++ natChars (tenths / 10) ++ '.' :: natChars (tenths % 10)

/-- `fmt`'s `%.1f` for an exact signed number of tenths (used where the Go
code never produces a negative zero). -/
def fmt1fz (tenths : Int) : Str := fmt1f (decide (tenths < 0)) tenths.natAbs

/-- `fmt`'s `%.2f` for a value that is exactly `hundredths / 100`. -/
def fmt2f (neg : Bool) (hundredths : Nat) : Str :=
  (if neg then ['-'] else []) ++ natChars (hundredths / 100) ++
    '.' :: (if hundredths % 100 < 10 then '0' :: natChars (hundredths % 100)
            else natChars (hundredths % 100))

/-! ## The Go `time` model

Instants are minutes since 1970-01-01 00:00 UTC.  `time.Date` with
out-of-range month/day/hour/minute normalises exactly as Go does: months
are folded into years, and day/hour/minute are added as linear offsets. -/

/-- `time.Date`'s month normalisation: fold `m` into `[1, 12]`. -/
def normYM (y m : Int) : Int × Int :=
  let m0 := m - 1
  (y + m0 / 12, m0 % 12 + 1)

/-- Days from 1970-01-01 of the civil date `y-m-d` (proleptic Gregorian,
`m ∈ [1,12]`, `d` arbitrary and added linearly, exactly as `time.Date`). -/
def daysFromCivil (y m d : Int) : Int :=
  let y' := if m ≤ 2 then y - 1 else y
  let era := y' / 400
  let yoe := y' - era * 400
  let mp := (m + 9) % 12
  let doy := (153 * mp + 2) / 5 + (d - 1)
  let doe := yoe * 365 + yoe / 4 - yoe / 100 + doy
  era * 146097 + doe - 719468

/-- `time.Date(y, m, d, h, mi, 0, 0, time.UTC)` as minutes since epoch. -/
def goDate (y m d h mi : Int) : Int :=
  let ym := normYM y m
  daysFromCivil ym.1 ym.2 d * 1440 + h * 60 + mi

/-- The zero `time.Time` (January 1, year 1, 00:00 UTC); `t.IsZero()` is
`t = goZero`. -/
def goZero : Int := goDate 1 1 1 0 0

/-- Civil date of a day count (inverse of `daysFromCivil`). -/
def civilFromDays (z0 : Int) : Int × Int × Int :=
  let z := z0 + 719468
  let era := z / 146097
  let doe := z - era * 146097
  let yoe := (doe - doe / 1460 + doe / 36524 - doe / 146096) / 365
  let y := yoe + era * 400
  let doy := doe - (365 * yoe + yoe / 4 - yoe / 100)
  let mp := (5 * doy + 2) / 153
  let d := doy - (153 * mp + 2) / 5 + 1
  let m := mp + (if mp < 10 then 3 else -9)
  (if m ≤ 2 then y + 1 else y, m, d)

/-- `t.AddDate(0, k, 0)`: take the civil date of `t`, add `k` months,
rebuild with the same clock. -/
def goAddMonths (t k : Int) : Int :=
  let days := t / 1440
  let rem := t - days * 1440
  let c := civilFromDays days
  goDate c.1 (c.2.1 + k) c.2.2 0 0 + rem

/-- The three components of `time.Now().UTC()` read by the decoder. -/
structure GoNow where
  year : Int
  month : Int
  day : Int
deriving DecidableEq, Repr

/-- A sane wall clock: what `time.Now().UTC()` can actually report. -/
def GoNow.sane (now : GoNow) : Prop :=
  2 ≤ now.year ∧ 1 ≤ now.month ∧ now.month ≤ 12

example : daysFromCivil 1970 1 1 = 0 := by decide
example : daysFromCivil 2000 3 1 = 11017 := by decide
example : goDate 2026 10 11 8 0 = goDate 2026 10 10 32 0 := by decide
example : goDate 2026 13 1 0 0 = goDate 2027 1 1 0 0 := by decide
example : goAddMonths (goDate 2026 10 11 8 0) 1 = goDate 2026 11 11 8 0 := by decide
example : goAddMonths (goDate 2026 1 31 0 0) 1 = goDate 2026 3 3 0 0 := by decide
example : goZero = -1035593280 := by decide

/-! ## String helpers (`strings` package operations on `Str`) -/

/-- `strings.HasPrefix s pre`. -/
def goStarts (s pre : Str) : Bool := pre.isPrefixOf s

/-- `strings.HasSuffix s suf`. -/
def goEnds (s suf : Str) : Bool := suf.isSuffixOf s

/-- `strings.Contains s sub`. -/
def goContains (s sub : Str) : Bool := s.tails.any fun t => sub.isPrefixOf t

/-- Split a string at the first occurrence of `ch` (the pieces exclude it). -/
def splitFirst (ch : Char) : Str → Option (Str × Str)
  | [] => none
  | c :: r =>
      if c == ch then some ([], r)
      else (splitFirst ch r).map fun p => (c :: p.1, p.2)

/-- Drop the last `n` characters. -/
def dropLastN (s : Str) (n : Nat) : Str := s.take (s.length - n)

/-- `strings.Join` with a single-space separator. -/
def joinSp : List Str → Str
  | [] => []
  | [x] => x
  | x :: r => x ++ ' ' :: joinSp r

/-! ## The compiled regular expressions of `definitions.go` -/

/-- `timeRegex = ^(\d{2})(\d{2})(\d{2})Z$`; captures (day, hour, minute). -/
def timeRegexM : Str → Option (Int × Int × Int)
  | [a, b, c, d, e, f, z] =>
      if isDigit a && isDigit b && isDigit c && isDigit d && isDigit e &&
         isDigit f && z == 'Z' then
        some ((natOfDigits [a, b] : Nat), (natOfDigits [c, d] : Nat),
              (natOfDigits [e, f] : Nat))
      else none
  | _ => none

/-- `(\d{2,3})(G(\d{2,3}))?` — a wind speed with optional gust group. -/
def speedGust (l : Str) : Option (Nat × Option Nat) :=
  match splitFirst 'G' l with
  | none =>
      if l.all isDigit && 2 ≤ l.length && l.length ≤ 3 then
        some (natOfDigits l, none)
      else none
  | some (sp, gu) =>
      if sp.all isDigit && 2 ≤ sp.length && sp.length ≤ 3 &&
         gu.all isDigit && 2 ≤ gu.length && gu.length ≤ 3 then
        some (natOfDigits sp, some (natOfDigits gu))
      else none

/-- `(VRB|\d{3})(\d{2,3})(G(\d{2,3}))?` — the unit-less wind body; captures
(direction, speed, gust). -/
def windCore (r : Str) : Option (Str × Nat × Option Nat) :=
  let dirRest : Option (Str × Str) :=
    match r with
    | 'V' :: 'R' :: 'B' :: rest => some (['V', 'R', 'B'], rest)
    | a :: b :: c :: rest =>
        if isDigit a && isDigit b && isDigit c then some ([a, b, c], rest) else none
    | _ => none
  match dirRest with
  | none => none
  | some (dir, rest) => (speedGust rest).map fun sg => (dir, sg)

/-- `windRegex = ^(VRB|\d{3})(\d{2,3})(G(\d{2,3}))?KT$`. -/
def windRegexM (s : Str) : Option (Str × Nat × Option Nat) :=
  if goEnds s (str "KT") then windCore (dropLastN s 2) else none

/-- `windRegexMPS = ^(VRB|\d{3})(\d{2,3})(G(\d{2,3}))?MPS$`. -/
def windRegexMPSM (s : Str) : Option (Str × Nat × Option Nat) :=
  if goEnds s (str "MPS") then windCore (dropLastN s 3) else none

/-- `windVarRegex = ^(\d{3})V(\d{3})$`. -/
def windVarRegexB : Str → Bool
  | [a, b, c, v, d, e, f] =>
      isDigit a && isDigit b && isDigit c && v == 'V' &&
      isDigit d && isDigit e && isDigit f
  | _ => false

/-- `\d+(/\d+)?` — an integer or a fraction of integers. -/
def fracShape (l : Str) : Bool :=
  match splitFirst '/' l with
  | none => !l.isEmpty && l.all isDigit
  | some (a, b) => !a.isEmpty && a.all isDigit && !b.isEmpty && b.all isDigit

/-- `visRegexM = ^M?(\d+(?:/\d+)?)SM$`. -/
def visRegexMB (s : Str) : Bool :=
  if goEnds s (str "SM") then
    let r := dropLastN s 2
    match r with
    | 'M' :: t => fracShape t
    | t => fracShape t
  else false

/-- `visRegexP = ^(\d+(?:/\d+)?|M|P)(\d+)SM$`. -/
def visRegexPB (s : Str) : Bool :=
  if goEnds s (str "SM") then
    let r := dropLastN s 2
    (List.range r.length).any fun i =>
      let g1 := r.take (i + 1)
      let g2 := r.drop (i + 1)
      !g2.isEmpty && g2.all isDigit &&
        (g1 = ['M'] || g1 = ['P'] || fracShape g1)
  else false

/-- `visRegexNum = ^\d{4}$`. -/
def visRegexNumB (s : Str) : Bool := s.length == 4 && s.all isDigit

/-- `visRegexDir = ^(\d{4})([NESW]{1,2})$`. -/
def visRegexDirB : Str → Bool
  | a :: b :: c :: d :: rest =>
      isDigit a && isDigit b && isDigit c && isDigit d &&
      1 ≤ rest.length && rest.length ≤ 2 &&
      rest.all fun x => x == 'N' || x == 'E' || x == 'S' || x == 'W'
  | _ => false

/-- `ndvRegex = ^(\d{4,5})NDV$`. -/
def ndvRegexB (s : Str) : Bool :=
  goEnds s (str "NDV") &&
    (let r := dropLastN s 3
     (r.length == 4 || r.length == 5) && r.all isDigit)

/-- `vvRegex = ^VV(\d{3})$`; captures the height digits' value. -/
def vvRegexM : Str → Option Nat
  | 'V' :: 'V' :: [a, b, c] =>
      if isDigit a && isDigit b && isDigit c then some (natOfDigits [a, b, c])
      else none
  | _ => none

/-- The six cloud coverage codes. -/
def covList : List Str := [str "SKC", str "CLR", str "FEW", str "SCT", str "BKN", str "OVC"]

/-- `cloudRegex = ^(SKC|CLR|FEW|SCT|BKN|OVC)(\d{3})?(CB|TCU)?$`; captures
(coverage, height digits value, type string — empty when absent). -/
def cloudRegexM (s : Str) : Option (Str × Option Nat × Str) :=
  let tailOpt : Str → Option Nat → Str → Option (Str × Option Nat × Str) :=
    fun cov h rest =>
      if rest = [] then some (cov, h, [])
      else if rest = str "CB" || rest = str "TCU" then some (cov, h, rest)
      else none
  match s with
  | x :: y :: z :: rest =>
      let cov := [x, y, z]
      if covList.contains cov then
        match rest with
        | a :: b :: c :: rest2 =>
            if isDigit a && isDigit b && isDigit c then
              tailOpt cov (some (natOfDigits [a, b, c])) rest2
            else tailOpt cov none rest
        | _ => tailOpt cov none rest
      else none
  | _ => none

/-- `(M?)(\d{2})` parsed from the front; yields (negated, value, rest). -/
def signedPair : Str → Option (Bool × Nat × Str)
  | 'M' :: a :: b :: r =>
      if isDigit a && isDigit b then some (true, natOfDigits [a, b], r) else none
  | a :: b :: r =>
      if isDigit a && isDigit b then some (false, natOfDigits [a, b], r) else none
  | _ => none

/-- `tempRegex = ^(M?)(\d{2})/(M?)(\d{2})$`; captures the two signed values. -/
def tempRegexM (s : Str) : Option (Int × Int) :=
  match signedPair s with
  | some (n1, v1, '/' :: r2) =>
      match signedPair r2 with
      | some (n2, v2, []) =>
          some (if n1 then -(v1 : Int) else (v1 : Int),
                if n2 then -(v2 : Int) else (v2 : Int))
      | _ => none
  | _ => none

/-- `tempOnlyRegex = ^(M?)(\d{2})/$`; captures the signed value. -/
def tempOnlyRegexM (s : Str) : Option Int :=
  match signedPair s with
  | some (n1, v1, ['/']) => some (if n1 then -(v1 : Int) else (v1 : Int))
  | _ => none

/-- `pressureRegex = ^A(\d{4})$`; captures the digits' value. -/
def pressureRegexM : Str → Option Nat
  | 'A' :: [a, b, c, d] =>
      if isDigit a && isDigit b && isDigit c && isDigit d then
        some (natOfDigits [a, b, c, d])
      else none
  | _ => none

/-- `validRegex = ^(\d{2})(\d{2})/(\d{2})(\d{2})$`; captures the four
two-digit values. -/
def validRegexM : Str → Option (Int × Int × Int × Int)
  | [a, b, c, d, s, e, f, g, h] =>
      if isDigit a && isDigit b && isDigit c && isDigit d && s == '/' &&
         isDigit e && isDigit f && isDigit g && isDigit h then
        some ((natOfDigits [a, b] : Nat), (natOfDigits [c, d] : Nat),
              (natOfDigits [e, f] : Nat), (natOfDigits [g, h] : Nat))
      else none
  | _ => none

/-- `cavokRegex = ^CAVOK$`. -/
def cavokRegexB (s : Str) : Bool := s = str "CAVOK"

/-- `specialRegex = ^(NOSIG|AUTO|COR|CCA|NSC|NCD|RTD)$`. -/
def specialRegexB (s : Str) : Bool :=
  [str "NOSIG", str "AUTO", str "COR", str "CCA", str "NSC", str "NCD",
   str "RTD"].contains s

/-- `[MP]?\d+` — a visibility value with optional more-than/less-than mark. -/
def mpDigits : Str → Bool
  | 'M' :: t => !t.isEmpty && t.all isDigit
  | 'P' :: t => !t.isEmpty && t.all isDigit
  | t => !t.isEmpty && t.all isDigit

/-- `rvrRegex = ^R(\d{2}[CLR]?)/([MP]?\d+)([DNU])?$` (guard only). -/
def rvrRegexB (s : Str) : Bool :=
  match s with
  | 'R' :: a :: b :: rest =>
      if isDigit a && isDigit b then
        let body : Str → Bool := fun z =>
          match z.getLast? with
          | some c =>
              if c == 'D' || c == 'N' || c == 'U' then mpDigits (dropLastN z 1)
              else mpDigits z
          | none => false
        match rest with
        | c :: '/' :: z => (c == 'C' || c == 'L' || c == 'R') && body z
        | '/' :: z => body z
        | _ => false
      else false
  | _ => false

/-- `runwayClearedRegex = ^R(\d{2}[CLR]?)/CLRD(\d{2})$`; captures
(runway, elapsed-minutes digits value). -/
def runwayClearedRegexM (s : Str) : Option (Str × Nat) :=
  match s with
  | 'R' :: a :: b :: rest =>
      if isDigit a && isDigit b then
        let fin : Str → Str → Option (Str × Nat) := fun rwy z =>
          match z with
          | ['C', 'L', 'R', 'D', x, y] =>
              if isDigit x && isDigit y then some (rwy, natOfDigits [x, y]) else none
          | _ => none
        match rest with
        | c :: '/' :: z =>
            if c == 'C' || c == 'L' || c == 'R' then fin [a, b, c] z else none
        | '/' :: z => fin [a, b] z
        | _ => none
      else none
  | _ => none

/-- Captures of `runwayCondRegex =
`^R(\d{2}[CLR]?)/(([MP]?\d+)(V([MP]?\d+))?(FT)?)(/(U|D|N)|U|D|N)?$``:
runway (1), first value (3), whether a variable part is present (4), second
value (5), whether `FT` is present (6), and the raw trend capture (7),
which may start with a slash. -/
structure RunwayCondCaps where
  runway : Str
  vis1 : Str
  hasVar : Bool
  vis2 : Str
  hasFT : Bool
  trendRaw : Str
deriving DecidableEq, Repr

/-- `runwayCondRegex` as a matcher; see `RunwayCondCaps`. -/
def runwayCondRegexM (s : Str) : Option RunwayCondCaps :=
  match s with
  | 'R' :: a :: b :: rest =>
      if isDigit a && isDigit b then
        let core : Str → Str → Option RunwayCondCaps := fun rwy z =>
          let tr : Str × Str :=
            match z.getLast? with
            | some c =>
                if c == 'U' || c == 'D' || c == 'N' then
                  if z.length ≥ 2 && (dropLastN z 1).getLast? == some '/' then
                    (dropLastN z 2, ['/', c])
                  else (dropLastN z 1, [c])
                else (z, [])
            | none => (z, [])
          let body := tr.1
          let withFT : Str × Bool :=
            if goEnds body (str "FT") then (dropLastN body 2, true) else (body, false)
          let b2 := withFT.1
          match splitFirst 'V' b2 with
          | none =>
              if mpDigits b2 then
                some ⟨rwy, b2, false, [], withFT.2, tr.2⟩
              else none
          | some (p, q) =>
              if mpDigits p && mpDigits q then
                some ⟨rwy, p, true, q, withFT.2, tr.2⟩
              else none
        match rest with
        | c :: '/' :: z =>
            if c == 'C' || c == 'L' || c == 'R' then core [a, b, c] z else none
        | '/' :: z => core [a, b] z
        | _ => none
      else none
  | _ => none

/-- `windShearAltRegex = ^WS(\d{3})/(\d{3})(\d{2,3})(G(\d{2,3}))?KT$`;
captures (altitude, direction, speed, gust). -/
def windShearAltRegexM (s : Str) : Option (Nat × Str × Nat × Option Nat) :=
  match s with
  | 'W' :: 'S' :: a :: b :: c :: '/' :: rest =>
      if isDigit a && isDigit b && isDigit c && goEnds rest (str "KT") then
        match dropLastN rest 2 with
        | d :: e :: f :: sg =>
            if isDigit d && isDigit e && isDigit f then
              (speedGust sg).map fun p =>
                (natOfDigits [a, b, c], [d, e, f], p.1, p.2)
            else none
        | _ => none
      else none
  | _ => none

/-- `\d{2}[LCR]?` — a runway designator. -/
def rwyDesig (l : Str) : Bool :=
  match l with
  | [a, b] => isDigit a && isDigit b
  | [a, b, c] => isDigit a && isDigit b && (c == 'L' || c == 'C' || c == 'R')
  | _ => false

/-- `windShearRwyRegex =
`^WS(\s+(TKOF|LDG|ALL)\s+RWY(\d{2}[LCR]?)?|\s+R(\d{2}[LCR]?)?)$``; captures
group 1 (the whole alternation) and group 2 (`TKOF|LDG|ALL`, empty in the
second alternative), which is what `parseWindShear` actually reads. -/
def windShearRwyRegexM (s : Str) : Option (Str × Str) :=
  match s with
  | 'W' :: 'S' :: rest =>
      let sp := rest.takeWhile fun c => isSpaceRe c
      let r2 := rest.dropWhile fun c => isSpaceRe c
      if sp.isEmpty then none
      else if goStarts r2 (str "TKOF") || goStarts r2 (str "LDG") ||
              goStarts r2 (str "ALL") then
        let ph := if goStarts r2 (str "TKOF") then str "TKOF"
                  else if goStarts r2 (str "LDG") then str "LDG" else str "ALL"
        let r3 := r2.drop ph.length
        let sp2 := r3.takeWhile fun c => isSpaceRe c
        let r4 := r3.dropWhile fun c => isSpaceRe c
        if sp2.isEmpty then none
        else
          match r4 with
          | 'R' :: 'W' :: 'Y' :: tl =>
              if tl = [] || rwyDesig tl then some (rest, ph) else none
          | _ => none
      else
        match r2 with
        | 'R' :: tl => if tl = [] || rwyDesig tl then some (rest, []) else none
        | _ => none
  | _ => none

/-! ## Grammar tables (`definitions.go`) -/

/-- The keys of the `weatherCodes` map of `definitions.go` (iteration order
is irrelevant: only membership of some contained key is observed). -/
def weatherCodesKeys : List Str :=
  [str "WS", str "VC", str "+", str "-", str "MI", str "PR", str "BC",
   str "DR", str "BL", str "SH", str "TS", str "FZ", str "DZ", str "RA",
   str "SN", str "SG", str "IC", str "PL", str "GR", str "GS", str "UP",
   str "BR", str "FG", str "FU", str "VA", str "DU", str "SA", str "HZ",
   str "PY", str "PO", str "SQ", str "FC", str "SS", str "DS"]

/-- Cloud-code shape test shared by `isWeatherCode` and
`parseForecastElement`: does the token start with a coverage code? -/
def hasCloudCover (s : Str) : Bool :=
  goStarts s (str "SKC") || goStarts s (str "CLR") || goStarts s (str "FEW") ||
  goStarts s (str "SCT") || goStarts s (str "BKN") || goStarts s (str "OVC")

/-- `isWeatherCode` (`decoders.go`): never matches cloud-shaped tokens, else
checks whether any weather code occurs as a substring. -/
def isWeatherCode (s : Str) : Bool :=
  if hasCloudCover s then false
  else weatherCodesKeys.any fun code => goContains s code

/-- `isVisibilityInMeters` (`decoders.go`). -/
def isVisibilityInMeters (s : Str) : Bool :=
  visRegexNumB s || visRegexDirB s || ndvRegexB s || s = str "0000"

/-- `isVerticalVisibility` (`decoders.go`). -/
def isVerticalVisibility (s : Str) : Bool := (vvRegexM s).isSome

/-! ## Decoded-record types (`definitions.go`)

Field renamings forced by Lean keywords: Go's `Type` fields are `Typ`,
`WindShear.Wind` is `ShearWind`, and `RunwayCondition.Prefix` is `Pfx`. -/

structure Wind where
  Direction : Str := []
  Speed : Int := 0
  Gust : Int := 0
  Unit : Str := []
deriving DecidableEq, Repr

structure WindShear where
  Typ : Str := []
  Runway : Str := []
  Phase : Str := []
  Altitude : Int := 0
  ShearWind : Wind := {}
  Raw : Str := []
deriving DecidableEq, Repr

structure Cloud where
  Coverage : Str := []
  Height : Int := 0
  Typ : Str := []
deriving DecidableEq, Repr

structure Remark where
  Raw : Str := []
  Description : Str := []
deriving DecidableEq, Repr

structure SiteInfo where
  Name : Str := []
  State : Str := []
  Country : Str := []
deriving DecidableEq, Repr

structure RunwayCondition where
  Runway : Str := []
  Visibility : Int := 0
  VisMin : Int := 0
  VisMax : Int := 0
  Trend : Str := []
  Unit : Str := []
  Pfx : Str := []
  Cleared : Bool := false
  ClearedTime : Int := 0
  Raw : Str := []
deriving DecidableEq, Repr

structure METAR where
  Raw : Str := []
  Station : Str := []
  Time : Int := goZero
  SiteInfo : SiteInfo := {}
  Wind : Wind := {}
  WindShear : List WindShear := []
  WindVariation : Str := []
  Visibility : Str := []
  Weather : List Str := []
  Clouds : List Cloud := []
  VertVis : Int := 0
  Temperature : Int := 0
  DewPoint : Option Int := none
  Pressure : ℚ := 0
  PressureUnit : Str := []
  Remarks : List Remark := []
  RunwayConditions : List RunwayCondition := []
  RVR : List Str := []
  SpecialCodes : List Str := []
  Unhandled : List Str := []
deriving DecidableEq, Repr

structure Forecast where
  Typ : Str := []
  Probability : Int := 0
  From : Int := goZero
  To : Int := goZero
  Wind : Wind := {}
  WindShear : List WindShear := []
  Visibility : Str := []
  Weather : List Str := []
  Clouds : List Cloud := []
  VertVis : Int := 0
  Raw : Str := []
deriving DecidableEq, Repr

structure TAF where
  Raw : Str := []
  Station : Str := []
  Time : Int := goZero
  SiteInfo : SiteInfo := {}
  ValidFrom : Int := goZero
  ValidTo : Int := goZero
  Forecasts : List Forecast := []
deriving DecidableEq, Repr

/-! ### Field-update helpers

Each Go assignment `m.Field = v` (or append) is wrapped in a tiny named
update function, so that decoded records stay small terms and the field
projections below reduce by `rfl`. -/

def mSetVis (m : METAR) (v : Str) : METAR := { m with Visibility := v }

def mSetVertVis (m : METAR) (v : Int) : METAR := { m with VertVis := v }

def mAddRunway (m : METAR) (rc : RunwayCondition) (p : Str) : METAR :=
  { m with RunwayConditions := m.RunwayConditions ++ [rc], RVR := m.RVR ++ [p] }

def mAddRVR (m : METAR) (p : Str) : METAR := { m with RVR := m.RVR ++ [p] }

def mAddWeather (m : METAR) (p : Str) : METAR :=
  { m with Weather := m.Weather ++ [p] }

def mAddWS (m : METAR) (ws : WindShear) : METAR :=
  { m with WindShear := m.WindShear ++ [ws] }

def mAddClouds (m : METAR) (c : Cloud) : METAR :=
  { m with Clouds := m.Clouds ++ [c] }

def mSetTempDew (m : METAR) (t : Int) (dp : Option Int) : METAR :=
  { m with Temperature := t, DewPoint := dp }

def mSetTemp (m : METAR) (t : Int) : METAR := { m with Temperature := t }

def mSetPressure (m : METAR) (q : ℚ) (u : Str) : METAR :=
  { m with Pressure := q, PressureUnit := u }

def mCavok (m : METAR) : METAR :=
  { m with Visibility := str "CAVOK",
           SpecialCodes := m.SpecialCodes ++ [str "CAVOK"] }

def mAddUnhandled (m : METAR) (p : Str) : METAR :=
  { m with Unhandled := m.Unhandled ++ [p] }

def mAddSpecial (m : METAR) (p : Str) : METAR :=
  { m with SpecialCodes := m.SpecialCodes ++ [p] }

def mSetWind (m : METAR) (w : Wind) : METAR := { m with Wind := w }

def mSetWindVar (m : METAR) (v : Str) : METAR := { m with WindVariation := v }

def mSetTime (m : METAR) (t : Int) : METAR := { m with Time := t }

def mSetStation (m : METAR) (s : Str) : METAR :=
  { m with Station := s, SiteInfo := { Name := s, State := [], Country := [] } }

def mSetWSList (m : METAR) (l : List WindShear) : METAR :=
  { m with WindShear := m.WindShear ++ l }

def mSetRemarks (m : METAR) (l : List Remark) : METAR := { m with Remarks := l }

def fSetWind (f : Forecast) (w : Wind) : Forecast := { f with Wind := w }

def fAddWS (f : Forecast) (ws : WindShear) : Forecast :=
  { f with WindShear := f.WindShear ++ [ws] }

def fSetVis (f : Forecast) (v : Str) : Forecast := { f with Visibility := v }

def fSetVertVis (f : Forecast) (v : Int) : Forecast := { f with VertVis := v }

def fAddClouds (f : Forecast) (c : Cloud) : Forecast :=
  { f with Clouds := f.Clouds ++ [c] }

def fAddWeather (f : Forecast) (p : Str) : Forecast :=
  { f with Weather := f.Weather ++ [p] }

def fSetTo (f : Forecast) (t : Int) : Forecast := { f with To := t }

def fSetFromTo (f : Forecast) (a b : Int) : Forecast :=
  { f with From := a, To := b }

/-! ## `parsers.go` -/

/-- `parseTime`: `DDHHMM Z` to an instant, with the backward month-rollover
correction (`now.Day() < day` means the previous month). -/
def parseTime (now : GoNow) (s : Str) : Option Int :=
  match timeRegexM s with
  | none => none
  | some (d, h, mi) =>
      let base := goDate now.year now.month d h mi
      some (if now.day < d then goAddMonths base (-1) else base)

/-- `parseWind`: try the `KT` shape, then the `MPS` shape, else the zero
`Wind`. -/
def parseWind (s : Str) : Wind :=
  match windRegexM s with
  | some (dir, sp, gu) =>
      { Direction := dir, Unit := str "KT", Speed := (sp : Int),
        Gust := match gu with | some g => (g : Int) | none => 0 }
  | none =>
      match windRegexMPSM s with
      | some (dir, sp, gu) =>
          { Direction := dir, Unit := str "MPS", Speed := (sp : Int),
            Gust := match gu with | some g => (g : Int) | none => 0 }
      | none => {}

/-- `parseWindVariation`: the original token when it matches, else empty. -/
def parseWindVariation (s : Str) : Str :=
  if windVarRegexB s then s else []

/-- `parseCloud`. -/
def parseCloud (s : Str) : Cloud :=
  match cloudRegexM s with
  | none => {}
  | some (cov, h, ty) =>
      { Coverage := cov, Typ := ty,
        Height := match h with | some v => (v : Int) * 100 | none => 0 }

/-- `parseWindShear`, including the dead-in-practice whitespace shapes (a
token never contains a space) and the faithful use of capture groups 1 and
2 of `windShearRwyRegex`. -/
def parseWindShear (s : Str) : WindShear :=
  let ws0 : WindShear := { Raw := s }
  if s = str "WS ALL RWY" then { ws0 with Typ := str "RWY", Phase := str "ALL" }
  else if s.length > 3 && decide (s.take 3 = str "WS ") &&
          (s.drop 3).head? == some 'R' && s.length ≥ 5 then
    { ws0 with Typ := str "RWY", Runway := s.drop 4 }
  else
    match windShearRwyRegexM s with
    | some (g1, g2) => { ws0 with Typ := str "RWY", Phase := g1, Runway := g2 }
    | none =>
        match windShearAltRegexM s with
        | some (alt, dir, sp, gu) =>
            { ws0 with
                Typ := str "ALT"
                Altitude := (alt : Int)
                ShearWind :=
                  { Direction := dir, Unit := str "KT", Speed := (sp : Int),
                    Gust := match gu with | some g => (g : Int) | none => 0 } }
        | none => ws0

/-- `parseRunwayCondition`. -/
def parseRunwayCondition (s : Str) : RunwayCondition :=
  let cond0 : RunwayCondition := { Raw := s }
  match runwayClearedRegexM s with
  | some (rwy, t) =>
      { cond0 with Runway := rwy, Cleared := true, ClearedTime := (t : Int) }
  | none =>
      match runwayCondRegexM s with
      | none => cond0
      | some caps =>
          let c1 := { cond0 with Runway := caps.runway }
          let visStr := caps.vis1
          let pv : Str × Str :=
            match visStr with
            | 'P' :: t => (['P'], t)
            | 'M' :: t => (['M'], t)
            | t => ([], t)
          let c2 :=
            if visStr.length > 0 then
              { c1 with Pfx := pv.1, Visibility := goAtoiD pv.2 }
            else c1
          let c3 :=
            if caps.hasVar then
              let vvs : Str :=
                match caps.vis2 with
                | 'P' :: t => t
                | 'M' :: t => t
                | t => t
              { c2 with VisMin := c2.Visibility, VisMax := goAtoiD vvs }
            else c2
          let c4 := if caps.hasFT then { c3 with Unit := str "FT" } else c3
          if caps.trendRaw ≠ [] then
            if goStarts caps.trendRaw (str "/") then
              { c4 with Trend := caps.trendRaw.drop 1 }
            else { c4 with Trend := caps.trendRaw }
          else c4

/-- `parseForecastElement` (TAF-period token classifier). -/
def parseForecastElement (f : Forecast) (part : Str) : Forecast :=
  if (windRegexM part).isSome then fSetWind f (parseWind part)
  else if goStarts part (str "WS") then fAddWS f (parseWindShear part)
  else if visRegexPB part || part = str "P6SM" then fSetVis f part
  else if isVisibilityInMeters part then fSetVis f part
  else if isVerticalVisibility part then
    match vvRegexM part with
    | some v => fSetVertVis f (v : Int)
    | none => f
  else if (cloudRegexM part).isSome then fAddClouds f (parseCloud part)
  else if isWeatherCode part then
    if !hasCloudCover part then fAddWeather f part
    else f
  else f

/-! ## `processRemarks` (`metar.go`) -/

/-- `strings.Split` on a single-character separator. -/
def goSplit (ch : Char) : Str → List Str
  | [] => [[]]
  | c :: r =>
      if c == ch then [] :: goSplit ch r
      else
        match goSplit ch r with
        | h :: t => (c :: h) :: t
        | [] => [[c]]

/-- The `remarkCodes` table of `processRemarks`. -/
def remarkCodesList : List (Str × Str) :=
  [(str "AO1", str "automated station without precipitation sensor"),
   (str "AO2", str "automated station with precipitation sensor"),
   (str "SLP", str "sea level pressure"),
   (str "RMK", str "remarks indicator"),
   (str "PRESRR", str "pressure rising rapidly"),
   (str "PRESFR", str "pressure falling rapidly"),
   (str "NOSIG", str "no significant changes expected"),
   (str "TEMPO", str "temporary"),
   (str "BECMG", str "becoming"),
   (str "VIRGA", str "precipitation not reaching ground"),
   (str "FROPA", str "frontal passage")]

/-- Map lookup in `remarkCodes`. -/
def lookupRemarkCode (k : Str) : Option Str :=
  (remarkCodesList.find? fun pr => pr.1 == k).map fun pr => pr.2

/-- The `weatherMap` of the recent-weather (`REww`) branch. -/
def recentWeatherMap : List (Str × Str) :=
  [(str "RA", str "rain"), (str "SN", str "snow"), (str "GR", str "hail"),
   (str "GS", str "small hail"), (str "TS", str "thunderstorm"),
   (str "FG", str "fog"), (str "SQ", str "squall"),
   (str "FC", str "funnel cloud")]

/-- Peak-wind group: does `PK WND ddd(dd|ddd)/hhmm` match the three joined
tokens, and with which captures?  (`^PK\s+WND\s+(\d{3})(\d{2,3})/(\d{2})(\d{2})$`
on the space-joined tokens forces `p = PK` and `t1 = WND` since tokens are
whitespace-free.) -/
def pkWndM (p t1 t2 : Str) : Option (Str × Str × Str × Str) :=
  if p = str "PK" && t1 = str "WND" then
    match t2 with
    | a :: b :: c :: rest =>
        if isDigit a && isDigit b && isDigit c then
          match splitFirst '/' rest with
          | some (sp, [h1, h2, m1, m2]) =>
              if sp.all isDigit && 2 ≤ sp.length && sp.length ≤ 3 &&
                 isDigit h1 && isDigit h2 && isDigit m1 && isDigit m2 then
                some ([a, b, c], sp, [h1, h2], [m1, m2])
              else none
          | _ => none
        else none
    | _ => none
  else none

/-- 6-hour max/min temperature branches (`1sTTT` / `2sTTT`). -/
def remSixHour (kind : Char) (label : Str) (p : Str) : Option Remark :=
  match p with
  | [k, sign, a, b, c] =>
      if k == kind then
        match goAtoi [a, b, c] with
        | some temp =>
            some { Raw := p,
                   Description := str "6-hour " ++ label ++
                     str " temperature " ++
                     fmt1f (if sign == '1' then decide (0 ≤ temp)
                            else decide (temp < 0)) temp.natAbs ++
                     str "°C" }
        | none => none
      else none
  | _ => none

/-- 3-hour pressure change branch (`3PPPP`). -/
def remPress3 (p : Str) : Option Remark :=
  match p with
  | ['3', a, b, c, d] =>
      (goAtoi [a, b, c, d]).map fun press =>
        { Raw := p,
          Description := str "3-hour pressure change: " ++ fmt1fz press ++
            str " hPa" }
  | _ => none

/-- Pressure tendency branch (`5appp`). -/
def remTendency (p : Str) : Option Remark :=
  match p with
  | ['5', tc, a, b, c] =>
      (goAtoi [a, b, c]).map fun change =>
        let tdesc :=
          if tc == '0' then str "increasing, then decreasing"
          else if tc == '1' then str "increasing, then steady"
          else if tc == '2' then str "increasing steadily"
          else if tc == '3' then str "increasing, then increasing more rapidly"
          else if tc == '4' then str "steady"
          else if tc == '5' then str "decreasing, then increasing"
          else if tc == '6' then str "decreasing, then steady"
          else if tc == '7' then str "decreasing steadily"
          else if tc == '8' then str "decreasing, then decreasing more rapidly"
          else str "unknown"
        { Raw := p,
          Description := str "pressure tendency: " ++ tdesc ++ str ", " ++
            fmt1fz change ++ str " hPa change" }
  | _ => none

/-- Hourly precipitation branch (`P####`). -/
def remPrecip (p : Str) : Option Remark :=
  match p with
  | ['P', a, b, c, d] =>
      if isDigit a && isDigit b && isDigit c && isDigit d then
        some { Raw := p,
               Description := str "precipitation of " ++
                 fmt2f false (natOfDigits [a, b, c, d]) ++
                 str " inches in the last hour" }
      else none
  | _ => none

/-- 24-hour precipitation branch (`7RRRR`). -/
def remPrecip24 (p : Str) : Option Remark :=
  match p with
  | ['7', a, b, c, d] =>
      (goAtoi [a, b, c, d]).map fun (precip : Int) =>
        { Raw := p,
          Description := str "24-hour precipitation: " ++
            fmt2f (decide (precip < 0)) precip.natAbs ++ str " inches" }
  | _ => none

/-- Snow depth branch (`4/sss`). -/
def remSnow (p : Str) : Option Remark :=
  match p with
  | ['4', '/', a, b, c] =>
      (goAtoi [a, b, c]).map fun snow =>
        { Raw := p,
          Description := str "snow depth: " ++ intChars snow ++ str " inches" }
  | _ => none

/-- Ice accretion branch (`IhVV`). -/
def remIce (p : Str) : Option Remark :=
  match p with
  | ['I', hd, a, b, c] =>
      if '1' ≤ hd && hd ≤ '3' then
        (goAtoi [a, b, c]).map fun (accretion : Int) =>
          let timeframe :=
            if hd == '1' then str "1-hour"
            else if hd == '2' then str "3-hour" else str "6-hour"
          { Raw := p,
            Description := timeframe ++ str " ice accretion: " ++
              fmt2f (decide (accretion < 0)) accretion.natAbs ++
              str " inches" }
      else none
  | _ => none

/-- Recent weather branch (`REww`). -/
def remRecent (p : Str) : Option Remark :=
  if goStarts p (str "RE") && p.length ≥ 4 then
    some (match (recentWeatherMap.find? fun pr => pr.1 == p.drop 2) with
      | some pr => { Raw := p, Description := str "recent " ++ pr.2 }
      | none => { Raw := p, Description := str "recent weather phenomenon" })
  else none

/-- Runway visual range free-text branch (`R…/…`). -/
def remRvrText (p : Str) : Option Remark :=
  if goStarts p (str "R") && goContains p (str "/") then
    some { Raw := p, Description := str "runway visual range information" }
  else none

/-- Single-token remark recognisers of `processRemarks`, in source order
(everything between the peak-wind group and the two-token groups).  `none`
means the token fell through to the two-token/table/catch-all logic; a
recogniser whose inner `Atoi` fails likewise falls through, matching the
`if`/`continue` cascade. -/
def rem1 (p : Str) : Option Remark :=
  -- sea level pressure
  if goStarts p (str "SLP") then
    some (match goAtoi (p.drop 3) with
      | some slp =>
          { Raw := p,
            Description := str "sea level pressure " ++
              fmt1fz ((if slp ≥ 500 then 9000 else 10000) + slp) ++ str " hPa" }
      | none =>
          { Raw := p, Description := str "sea level pressure (invalid format)" })
  else
  -- detailed temperature/dew point in tenths
  match p with
  | ['T', s1, a, b, c, s2, d, e, f] =>
      if isDigit s1 && isDigit a && isDigit b && isDigit c &&
         isDigit s2 && isDigit d && isDigit e && isDigit f then
        some { Raw := p,
               Description := str "temperature " ++
                 fmt1f (s1 == '1') (natOfDigits [a, b, c]) ++
                 str "°C, dew point " ++
                 fmt1f (s2 == '1') (natOfDigits [d, e, f]) ++ str "°C" }
      else rem1b p
  | _ => rem1b p
where
  /-- continuation: the branches from the 6-hour maximum temperature on. -/
  rem1b (p : Str) : Option Remark :=
    ((((((((remSixHour '1' (str "maximum") p).orElse fun _ =>
      remSixHour '2' (str "minimum") p).orElse fun _ => remPress3 p).orElse fun _ =>
        remTendency p).orElse fun _ => remPrecip p).orElse fun _ =>
          remPrecip24 p).orElse fun _ =>
            remSnow p).orElse fun _ => remIce p).orElse (fun _ => remRecent p)
      |>.orElse fun _ => remRvrText p


/-- The two-token (`SNINCR a/b`, `CIG ddd`), fixed-table, and catch-all tail
of `processRemarks`.  Returns the remark and whether the next token was also
consumed. -/
def remTail (p : Str) (next : Option Str) : Remark × Bool :=
  match next with
  | some nx =>
      if p = str "SNINCR" then
        if goContains nx (str "/") then
          match goSplit '/' nx with
          | [x, y] =>
              ({ Raw := p ++ ' ' :: nx,
                 Description := str "snow increasing rapidly: " ++ x ++
                   str " inch within " ++ y ++ str " hour" }, true)
          | _ => remFix p
        else remFix p
      else if p = str "CIG" then
        match goAtoi nx with
        | some height =>
            ({ Raw := p ++ ' ' :: nx,
               Description := str "variable ceiling height: " ++
                 intChars (height * 100) ++ str " feet" }, true)
        | none => remFix p
      else remFix p
  | none => remFix p
where
  /-- known remark codes, then the catch-all. -/
  remFix (p : Str) : Remark × Bool :=
    match lookupRemarkCode p with
    | some d => ({ Raw := p, Description := d }, false)
    | none => ({ Raw := p, Description := str "unknown remark code" }, false)

/-- One non-peak-wind step of `processRemarks`. -/
def remStep (p : Str) (next : Option Str) : Remark × Bool :=
  match rem1 p with
  | some r => (r, false)
  | none => remTail p next

/-- `processRemarks` (`metar.go`): the left-to-right cascade over the
tokens after `RMK`. -/
def processRemarks : List Str → List Remark
  | [] => []
  | [p] => [(remStep p none).1]
  | [p, t1] =>
      let s := remStep p (some t1)
      if s.2 then [s.1] else s.1 :: processRemarks [t1]
  | p :: t1 :: t2 :: rest3 =>
      if goStarts p (str "PK") then
        match pkWndM p t1 t2 with
        | some (dir, sp, hh, mm) =>
            { Raw := joinSp [p, t1, t2],
              Description := str "peak wind " ++ dir ++ str "° at " ++ sp ++
                str " knots at " ++ hh ++ str ":" ++ mm } ::
              processRemarks rest3
        | none =>
            let s := remStep p (some t1)
            if s.2 then s.1 :: processRemarks (t2 :: rest3)
            else s.1 :: processRemarks (t1 :: t2 :: rest3)
      else
        let s := remStep p (some t1)
        if s.2 then s.1 :: processRemarks (t2 :: rest3)
        else s.1 :: processRemarks (t1 :: t2 :: rest3)

/-! ## `DecodeMETAR` (`decoders.go`) -/

/-- Scan for the `RMK` index (stopping there) and the `TEMPO`/`BECMG`/
`INTER` indices before it, as the first loop of `DecodeMETAR` does. -/
def scanSections : List Str → Nat → Option Nat × List Nat
  | [], _ => (none, [])
  | p :: r, i =>
      if p = str "RMK" then (some i, [])
      else
        let q := scanSections r (i + 1)
        (q.1,
         if p = str "TEMPO" || p = str "BECMG" || p = str "INTER" then i :: q.2
         else q.2)

/-- The `WS ALL RWY` / `WS R##` pre-pass of `DecodeMETAR`: stamp consumed
tokens with `__PROCESSED__` and collect the wind-shear records. -/
def wsPre : List Str → List Str × List WindShear
  | a :: b :: c :: rest =>
      if a = str "WS" && b = str "ALL" && c = str "RWY" then
        let q := wsPre rest
        (str "__PROCESSED__" :: str "__PROCESSED__" :: str "__PROCESSED__" :: q.1,
         { Typ := str "RWY", Phase := str "ALL", Raw := str "WS ALL RWY" } :: q.2)
      else if a = str "WS" && goStarts b (str "R") && b.length > 1 then
        let q := wsPre (c :: rest)
        (str "__PROCESSED__" :: str "__PROCESSED__" :: q.1,
         { Typ := str "RWY", Runway := b.drop 1, Raw := a ++ ' ' :: b } :: q.2)
      else
        let q := wsPre (b :: c :: rest)
        (a :: q.1, q.2)
  | [a, b] =>
      if a = str "WS" && goStarts b (str "R") && b.length > 1 then
        ([str "__PROCESSED__", str "__PROCESSED__"],
         [{ Typ := str "RWY", Runway := b.drop 1, Raw := a ++ ' ' :: b }])
      else ([a, b], [])
  | l => (l, [])

/-- The lookahead-free branches of `DecodeMETAR`'s main loop, in source
order, from statute-mile visibility to the `Unhandled` fallback.  The
`Bool` is the `pressureFound` flag. -/
def mStepP (m : METAR) (pf : Bool) (part : Str) : METAR × Bool :=
  match tempRegexM part with
  | some (t, dp) => (mSetTempDew m t (some dp), pf)
  | none =>
  match tempOnlyRegexM part with
  | some t => (mSetTemp m t, pf)
  | none =>
  if part.length > 1 && part.headD ' ' == 'Q' then
    if pf then (m, pf)
    else
      match goAtoi (part.drop 1) with
      | some v => (mSetPressure m (v : ℚ) (str "hPa"), true)
      | none => (m, pf)
  else
    match pressureRegexM part with
    | some v =>
        if pf then (m, pf)
        else (mSetPressure m (mkRat v 100) (str "inHg"), true)
    | none =>
    if cavokRegexB part then (mCavok m, pf)
    else (mAddUnhandled m part, pf)

def mStep1 (m : METAR) (pf : Bool) (part : Str) : METAR × Bool :=
  if visRegexMB part then (mSetVis m part, pf)
  else if isVisibilityInMeters part then (mSetVis m part, pf)
  else if isVerticalVisibility part then
    (match vvRegexM part with
     | some v => mSetVertVis m (v : Int)
     | none => m, pf)
  else if (runwayClearedRegexM part).isSome || (runwayCondRegexM part).isSome then
    (mAddRunway m (parseRunwayCondition part) part, pf)
  else if rvrRegexB part then (mAddRVR m part, pf)
  else if isWeatherCode part then (mAddWeather m part, pf)
  else if goContains part (str "WS") then
    (mAddWS m (parseWindShear part), pf)
  else if (cloudRegexM part).isSome then
    (mAddClouds m (parseCloud part), pf)
  else mStepP m pf part

/-- One step of `DecodeMETAR`'s main loop: the stamped-token skip, the
special codes, the wind group with its variation lookahead, the `WS`-prefix
shortcut, and the split statute-mile visibility lookahead, falling back to
`mStep1`.  The outer `Bool` records whether the lookahead token was also
consumed. -/
def mStepFull (m : METAR) (pf : Bool) (part : Str) (next : Option Str) :
    (METAR × Bool) × Bool :=
  if part = str "__PROCESSED__" then ((m, pf), false)
  else if specialRegexB part then ((mAddSpecial m part, pf), false)
  else if (windRegexM part).isSome then
    let m1 := mSetWind m (parseWind part)
    match next with
    | some nx =>
        if windVarRegexB nx then
          ((mSetWindVar m1 (parseWindVariation nx), pf), true)
        else ((m1, pf), false)
    | none => ((m1, pf), false)
  else if goStarts part (str "WS") then
    ((mAddWS m (parseWindShear part), pf), false)
  else
    match next with
    | some nx =>
        if goEnds nx (str "SM") && !goStarts part (str "P") &&
           !goStarts part (str "M") && !goContains part (str "/") &&
           part.length == 1 then
          ((mSetVis m (part ++ ' ' :: nx), pf), true)
        else (mStep1 m pf part, false)
    | none => (mStep1 m pf part, false)

/-- The main classification loop of `DecodeMETAR` over the (stamped) main
section. -/
def mLoop (m : METAR) (pf : Bool) : List Str → METAR
  | [] => m
  | [part] => (mStepFull m pf part none).1.1
  | part :: nx :: rest2 =>
      let r := mStepFull m pf part (some nx)
      if r.2 then mLoop r.1.1 r.1.2 rest2
      else mLoop r.1.1 r.1.2 (nx :: rest2)

/-- `DecodeMETAR` (`decoders.go`): never fails; splits station/time, bounds
the main body at the earliest of `RMK`/`TEMPO`/`BECMG`/`INTER`, pre-passes
split wind-shear tokens, classifies the main body, then decodes remarks. -/
def DecodeMETAR (now : GoNow) (raw : Str) : METAR :=
  let m0 : METAR := { Raw := raw }
  let parts := goFields raw
  if parts.length < 2 then m0
  else
    let station := parts.headD []
    let m1 := mSetStation m0 station
    let t1 := parts.tail.headD []
    let m2 :=
      if (timeRegexM t1).isSome then
        match parseTime now t1 with
        | some tt => mSetTime m1 tt
        | none => m1
      else m1
    let scan := scanSections parts 0
    let e0 := match scan.1 with | some i => i | none => parts.length
    let endIndex := scan.2.foldl (fun e i => if i < e then i else e) e0
    let mainToks := (parts.drop 2).take (endIndex - 2)
    let pre := wsPre mainToks
    let m3 := mSetWSList m2 pre.2
    let m4 := mLoop m3 false pre.1
    match scan.1 with
    | some ri =>
        if ri + 1 < parts.length then
          mSetRemarks m4 (processRemarks (parts.drop (ri + 1)))
        else m4
    | none => m4

/-! ## `DecodeTAF` (`decoders.go`) -/

/-- A change-group keyword (`FM…`, `BECMG`, `TEMPO`, `PROB…`), exactly the
disjunction tested throughout `DecodeTAF`. -/
def isChangeKw (p : Str) : Bool :=
  p = str "FM" || goStarts p (str "FM") || p = str "BECMG" ||
  p = str "TEMPO" || goStarts p (str "PROB")

/-- Does the token contain a `\d{4}/\d{4}` substring?  (The base-forecast
skip uses an unanchored `validTimeRegex`.) -/
def startsVTP : Str → Bool
  | a :: b :: c :: d :: s :: e :: f :: g :: h :: _ =>
      isDigit a && isDigit b && isDigit c && isDigit d && s == '/' &&
      isDigit e && isDigit f && isDigit g && isDigit h
  | _ => false

def hasVTP : Str → Bool
  | [] => false
  | c :: r => startsVTP (c :: r) || hasVTP r

/-- The issuance-time / validity-window scan of `DecodeTAF`: repeated
`DDHHMM Z` matches update the issue time; the first `DDHH/DDHH` match sets
the validity window and stops the scan. -/
def scanIssue (now : GoNow) : List Str → Int → Int × Int × Int
  | [], tm => (tm, goZero, goZero)
  | p :: r, tm =>
      if (timeRegexM p).isSome then
        scanIssue now r (match parseTime now p with | some tt => tt | none => tm)
      else
        match validRegexM p with
        | some (fd, fh, td, th) =>
            (tm, goDate now.year now.month fd fh 0, goDate now.year now.month td th 0)
        | none => scanIssue now r tm

/-- Element scan of the base forecast: skip time-like tokens, classify the
rest. -/
def baseFold (f : Forecast) : List Str → Forecast
  | [] => f
  | p :: r =>
      if (timeRegexM p).isSome || hasVTP p then baseFold f r
      else baseFold (parseForecastElement f p) r

/-- The `FM` start time: only a six-character time is decoded (otherwise
the period keeps the zero `From`), with the forward month-rollover
correction (`now.Day() > day` means the next month). -/
def fmStart (now : GoNow) (fmTime : Str) : Int :=
  if fmTime.length = 6 then
    let day := goAtoiD (fmTime.take 2)
    let hour := goAtoiD ((fmTime.drop 2).take 2)
    let minute := goAtoiD (fmTime.drop 4)
    let base := goDate now.year now.month day hour minute
    if now.day > day then goAddMonths base 1 else base
  else goZero

/-- Consume a period's body tokens up to the next change keyword. -/
def consumeBody (f : Forecast) : List Str → Forecast × List Str
  | [] => (f, [])
  | p :: r =>
      if isChangeKw p then (f, p :: r)
      else consumeBody (parseForecastElement f p) r

/-- Replace the last forecast's `To`. -/
def setLastTo : List Forecast → Int → List Forecast
  | [], _ => []
  | [f], t => [fSetTo f t]
  | f :: r, t => f :: setLastTo r t

/-- Does the last forecast of the list have an unset (`IsZero`) `To`? -/
def lastToZero (l : List Forecast) : Bool :=
  match l.getLast? with
  | some lf => lf.To = goZero
  | none => false

/-- The change-group loop of `DecodeTAF`.  The `fuel` argument makes the
recursion structural; every outer iteration consumes at least one token, so
any `fuel ≥ tokens.length` computes the loop's fixpoint. -/
def procGroups (now : GoNow) (vFrom vTo : Int) :
    Nat → List Forecast → List Str → List Forecast
  | _, acc, [] => acc
  | 0, acc, _ :: _ => acc
  | fuel + 1, acc, part :: rest =>
      if part = str "FM" || goStarts part (str "FM") then
        let ft : Str × List Str :=
          if part = str "FM" && !rest.isEmpty then (rest.headD [], rest.tail)
          else (part.drop 2, rest)
        let fm := fmStart now ft.1
        let acc1 := if !acc.isEmpty && lastToZero acc then setLastTo acc fm else acc
        let f0 : Forecast := { Typ := str "FM", Raw := part, From := fm }
        let cb := consumeBody f0 ft.2
        procGroups now vFrom vTo fuel (acc1 ++ [cb.1]) cb.2
      else if part = str "BECMG" || part = str "TEMPO" then
        let iv : Option (Int × Int × Int × Int) × List Str :=
          match rest with
          | nx :: r2 =>
              match validRegexM nx with
              | some q => (some q, r2)
              | none => (none, nx :: r2)
          | [] => (none, [])
        let f0 : Forecast :=
          match iv.1 with
          | some (fd, fh, td, th) =>
              { Typ := part, Raw := part,
                From := goDate now.year now.month fd fh 0,
                To := goDate now.year now.month td th 0 }
          | none => { Typ := part, Raw := part }
        let cb := consumeBody f0 iv.2
        procGroups now vFrom vTo fuel (acc ++ [cb.1]) cb.2
      else if goStarts part (str "PROB") then
        match goAtoi (part.drop 4) with
        | none => procGroups now vFrom vTo fuel acc rest
        | some pv =>
            let iv : Option (Int × Int × Int × Int) × List Str :=
              match rest with
              | nx :: r2 =>
                  match validRegexM nx with
                  | some q => (some q, r2)
                  | none => (none, nx :: r2)
              | [] => (none, [])
            let f0 : Forecast :=
              match iv.1 with
              | some (fd, fh, td, th) =>
                  { Typ := part, Probability := pv, Raw := part,
                    From := goDate now.year now.month fd fh 0,
                    To := goDate now.year now.month td th 0 }
              | none => { Typ := part, Probability := pv, Raw := part }
            let f1 :=
              if f0.From = goZero then
                match acc.getLast? with
                | some lf => fSetFromTo f0 lf.From lf.To
                | none => fSetFromTo f0 vFrom vTo
              else f0
            let cb := consumeBody f1 iv.2
            procGroups now vFrom vTo fuel (acc ++ [cb.1]) cb.2
      else procGroups now vFrom vTo fuel acc rest

/-- `DecodeTAF` (`decoders.go`): clean and tokenize, split station and
issuance/validity, build the base period, run the change-group state
machine, and back-fill the final period's `To`. -/
def DecodeTAF (now : GoNow) (raw : Str) : TAF :=
  let t0 : TAF := { Raw := raw }
  let cleaned := cleanRaw raw
  let parts := goFields cleaned
  if parts.length < 3 then t0
  else
    let startIdx := if parts.headD [] = str "TAF" then 1 else 0
    let station := (parts.drop startIdx).headD []
    let t1 := { t0 with
                  Station := station
                  SiteInfo := { Name := station, State := [], Country := [] } }
    let sc := scanIssue now (parts.drop (startIdx + 1)) goZero
    let t2 := { t1 with Time := sc.1, ValidFrom := sc.2.1, ValidTo := sc.2.2 }
    let changeIndex := parts.findIdx isChangeKw
    let base0 : Forecast := { Typ := str "BASE", From := t2.ValidFrom, Raw := cleaned }
    let baseToks := (parts.drop (startIdx + 1)).take (changeIndex - (startIdx + 1))
    let base1 := baseFold base0 baseToks
    let rest := parts.drop changeIndex
    let fcs := procGroups now t2.ValidFrom t2.ValidTo rest.length [base1] rest
    let fcs2 :=
      if !fcs.isEmpty && lastToZero fcs then setLastTo fcs t2.ValidTo else fcs
    { t2 with Forecasts := fcs2 }


/-! ## Pressure-token characterization (C2)

`isQTok`/`isATok` are the claim's `Q####`/`A####` shapes; `pressTokVal` and
`pressTokUnit` read off the pressure and unit the source assigns for such a
token; `stepSetsP` transcribes the exact chain of guards under which the
main loop's fall-through branch reaches one of the two pressure
assignments (setting `pressureFound`). -/

def isQTok (p : Str) : Bool :=
  match p with
  | 'Q' :: ds => ds.length == 4 && ds.all isDigit
  | _ => false

def isATok (p : Str) : Bool :=
  match p with
  | 'A' :: ds => ds.length == 4 && ds.all isDigit
  | _ => false

def pressTokVal (p : Str) : ℚ :=
  match p with
  | 'Q' :: ds => ((natOfDigits ds : Int) : ℚ)
  | 'A' :: ds => mkRat (natOfDigits ds) 100
  | _ => 0

def pressTokUnit (p : Str) : Str :=
  match p with
  | 'Q' :: _ => str "hPa"
  | _ => str "inHg"

def stepSetsP (q : Str) : Bool :=
  !visRegexMB q && !isVisibilityInMeters q && !isVerticalVisibility q &&
  !((runwayClearedRegexM q).isSome || (runwayCondRegexM q).isSome) &&
  !rvrRegexB q && !isWeatherCode q && !goContains q (str "WS") &&
  !(cloudRegexM q).isSome && (tempRegexM q).isNone && (tempOnlyRegexM q).isNone &&
  (if q.length > 1 && q.headD ' ' == 'Q' then (goAtoi (q.drop 1)).isSome
   else (pressureRegexM q).isSome)


/-! ## The spec's timeline-continuity property (C1)

`chainB`/`timelineB` transcribe the spec's invariant wording: adjacent
periods' `To`/`From` agree and the last period's `To` equals the overall
`ValidTo`. -/

def chainB : List Forecast → Bool
  | [] => true
  | [_] => true
  | f :: g :: r => decide (f.To = g.From) && chainB (g :: r)

def timelineB (l : List Forecast) (vTo : Int) : Bool :=
  chainB l &&
    (match l.getLast? with
     | some lf => decide (lf.To = vTo)
     | none => true)


/-! ## Tokenization lemmas: cleaning does not change the field split -/

theorem fieldsGo_allSpace :
    ∀ (s : Str), (∀ c ∈ s, isSpaceGo c = true) → ∀ acc,
      fieldsGo s acc = if acc = [] then [] else [acc.reverse]
  | [], _, acc => by simp [fieldsGo]
  | c :: r, hs, acc => by
      have hc : isSpaceGo c = true := hs c (List.mem_cons_self c r)
      have ih := fieldsGo_allSpace r (fun x hx => hs x (List.mem_cons_of_mem c hx))
      by_cases ha : acc = [] <;> simp [fieldsGo, hc, ha, ih]

theorem fieldsGo_append_space :
    ∀ (l s : Str), (∀ c ∈ s, isSpaceGo c = true) → ∀ acc,
      fieldsGo (l ++ s) acc = fieldsGo l acc
  | [], s, hs, acc => by
      rw [List.nil_append, fieldsGo_allSpace s hs acc]; simp [fieldsGo]
  | c :: r, s, hs, acc => by
      have ih := fieldsGo_append_space r s hs
      by_cases hc : isSpaceGo c <;> simp [fieldsGo, hc, ih]

theorem fieldsGo_dropWhile :
    ∀ (l : Str), fieldsGo (l.dropWhile isSpaceGo) [] = fieldsGo l []
  | [] => rfl
  | c :: r => by
      by_cases hc : isSpaceGo c
      · rw [List.dropWhile_cons_of_pos hc, fieldsGo_dropWhile r]
        simp [fieldsGo, hc]
      · rw [List.dropWhile_cons_of_neg hc]

theorem goFields_trim (l : Str) : goFields (goTrimSpace l) = goFields l := by
  unfold goFields goTrimSpace
  set l1 := l.dropWhile isSpaceGo with hl1
  have hdecomp : (l1.reverse.dropWhile isSpaceGo).reverse ++
      (l1.reverse.takeWhile isSpaceGo).reverse = l1 := by
    rw [← List.reverse_append, List.takeWhile_append_dropWhile, List.reverse_reverse]
  have hs : ∀ c ∈ (l1.reverse.takeWhile isSpaceGo).reverse, isSpaceGo c = true := by
    intro c hc
    rw [List.mem_reverse] at hc
    exact List.mem_takeWhile_imp hc
  calc fieldsGo ((l1.reverse.dropWhile isSpaceGo).reverse) []
      = fieldsGo ((l1.reverse.dropWhile isSpaceGo).reverse ++
          (l1.reverse.takeWhile isSpaceGo).reverse) [] :=
        (fieldsGo_append_space _ _ hs []).symm
    _ = fieldsGo l1 [] := by rw [hdecomp]
    _ = fieldsGo l [] := fieldsGo_dropWhile l

theorem fieldsGo_collapse :
    ∀ (l : Str),
      (∀ acc, fieldsGo (collapseWs l false) acc = fieldsGo l acc) ∧
      fieldsGo (collapseWs l true) [] = fieldsGo l []
  | [] => ⟨fun _ => rfl, rfl⟩
  | c :: r => by
      have ih := fieldsGo_collapse r
      by_cases hre : isSpaceRe c
      · have hgo : isSpaceGo c = true := isSpaceGo_of_isSpaceRe hre
        have hsp : isSpaceGo ' ' = true := by decide
        constructor
        · intro acc
          by_cases ha : acc = [] <;>
            simp [collapseWs, fieldsGo, hre, hgo, ha, ih.2, hsp]
        · simp [collapseWs, fieldsGo, hre, hgo, ih.2, hsp]
      · by_cases hgo : isSpaceGo c
        · constructor
          · intro acc
            by_cases ha : acc = [] <;>
              simp [collapseWs, fieldsGo, hre, hgo, ha, ih.1]
          · simp [collapseWs, fieldsGo, hre, hgo, ih.1]
        · constructor
          · intro acc; simp [collapseWs, fieldsGo, hre, hgo, ih.1]
          · simp [collapseWs, fieldsGo, hre, hgo, ih.1]

theorem goFields_cleanRaw (l : Str) : goFields (cleanRaw l) = goFields l := by
  unfold cleanRaw
  calc goFields (collapseWs (goTrimSpace l) false)
      = goFields (goTrimSpace l) := (fieldsGo_collapse (goTrimSpace l)).1 []
    _ = goFields l := goFields_trim l

/-! ## Claim theorems -/

/-- C6: `DecodeMETAR` is total (it is a Lean function), and an input with
fewer than two whitespace-separated tokens decodes to the record whose
`Raw` field is the input and whose every other field is the zero value. -/
theorem decodeMETAR_short_input (now : GoNow) (raw : Str)
    (h : (goFields raw).length < 2) :
    DecodeMETAR now raw = { Raw := raw } := by
  unfold DecodeMETAR
  simp only [if_pos h]

theorem decodeMETAR_short_input_witness :
    (goFields (str "KSFO")).length < 2 ∧
      DecodeMETAR ⟨2026, 10, 11⟩ (str "KSFO") = { Raw := str "KSFO" } :=
  ⟨by decide, decodeMETAR_short_input ⟨2026, 10, 11⟩ (str "KSFO") (by decide)⟩

/-- C10: an input splitting into fewer than three whitespace-separated
fields decodes (after the whitespace cleaning, which cannot change the
field count) to the `TAF` whose `Raw` is the original input and whose every
other field — station, time, validity window, site info, and in particular
the forecast list — is the zero/empty value. -/
theorem decodeTAF_short_input (now : GoNow) (raw : Str)
    (h : (goFields raw).length < 3) :
    DecodeTAF now raw = { Raw := raw } := by
  simp only [DecodeTAF, goFields_cleanRaw]
  simp only [if_pos h]

theorem decodeTAF_short_input_witness :
    (goFields (str "TAF KBOS")).length < 3 ∧
      DecodeTAF ⟨2026, 10, 11⟩ (str "TAF KBOS") = { Raw := str "TAF KBOS" } ∧
      (DecodeTAF ⟨2026, 10, 11⟩ (str "TAF KBOS")).Forecasts = [] :=
  ⟨by decide,
   decodeTAF_short_input ⟨2026, 10, 11⟩ (str "TAF KBOS") (by decide),
   by rw [decodeTAF_short_input ⟨2026, 10, 11⟩ (str "TAF KBOS") (by decide)]⟩

/-- C9 counterexample: the decoded `Wind` record's speed is *not* an
optional/nullable value.  A METAR with no wind group at all decodes to the
zero `Wind` record with `Speed = 0`, which is exactly the value decoded
from an explicit calm-wind `00000KT` group: missing and zero coincide. -/
theorem wind_speed_missing_equals_zero :
    (DecodeMETAR ⟨2026, 10, 11⟩ (str "KSFO 071756Z 10SM")).Wind = ({} : Wind) ∧
    (DecodeMETAR ⟨2026, 10, 11⟩ (str "KSFO 071756Z 10SM")).Wind.Speed =
      (DecodeMETAR ⟨2026, 10, 11⟩ (str "KSFO 071756Z 00000KT 10SM")).Wind.Speed := by
  exact ⟨by decide, by decide⟩

/-- C9 amended: `Wind.Speed` is a plain integer whose zero value doubles as
"missing" — any token matching neither wind shape parses to the zero `Wind`
record — while the missing-versus-present distinction *is* kept for the dew
point, which is an explicit optional (`*int` in the source). -/
theorem wind_speed_plain_int :
    (∀ s : Str, windRegexM s = none → windRegexMPSM s = none → parseWind s = {}) ∧
    (DecodeMETAR ⟨2026, 10, 11⟩ (str "KSFO 071756Z M01/ A2999")).DewPoint = none ∧
    (DecodeMETAR ⟨2026, 10, 11⟩ (str "KSFO 071756Z 16/10 A2999")).DewPoint = some 10 := by
  refine ⟨fun s h1 h2 => ?_, by decide, by decide⟩
  unfold parseWind
  rw [h1, h2]

theorem wind_speed_plain_int_witness :
    parseWind (str "NOWIND") = {} :=
  wind_speed_plain_int.1 (str "NOWIND") (by decide) (by decide)

/-- C4: the `SLP` remark law.  For any `SLP` token whose suffix parses as
an integer `v`, the reported sea-level pressure is
`(900 if v ≥ 500 else 1000) + v/10` hPa (stated exactly, in tenths); in
particular `SLP096` decodes to 1009.6 hPa and `SLP982` to 998.2 hPa.  (The
magnitude bound keeps the exact-tenths model identical to the source's
`float64` arithmetic.) -/
theorem slp_law :
    (∀ (s : Str) (v : Int) (rest : List Str), goAtoi s = some v →
      v.natAbs ≤ 1000000 →
      processRemarks ((str "SLP" ++ s) :: rest) =
        { Raw := str "SLP" ++ s,
          Description := str "sea level pressure " ++
            fmt1fz ((if v ≥ 500 then 9000 else 10000) + v) ++ str " hPa" } ::
          processRemarks rest) ∧
    processRemarks [str "SLP096"] =
      [{ Raw := str "SLP096", Description := str "sea level pressure 1009.6 hPa" }] ∧
    processRemarks [str "SLP982"] =
      [{ Raw := str "SLP982", Description := str "sea level pressure 998.2 hPa" }] := by
  refine ⟨fun s v rest hv _ => ?_, by decide, by decide⟩
  have h1 : rem1 (str "SLP" ++ s) =
      some { Raw := str "SLP" ++ s,
             Description := str "sea level pressure " ++
               fmt1fz ((if v ≥ 500 then 9000 else 10000) + v) ++ str " hPa" } := by
    unfold rem1
    have hg : goStarts (str "SLP" ++ s) (str "SLP") = true := by
      simp [goStarts, str, List.isPrefixOf]
    rw [hg]
    have hd : (str "SLP" ++ s).drop 3 = s := rfl
    rw [if_pos rfl, hd, hv]
  have hpk : goStarts (str "SLP" ++ s) (str "PK") = false := by
    simp [goStarts, str, List.isPrefixOf]
  rcases rest with _ | ⟨t1, _ | ⟨t2, r3⟩⟩
  · simp [processRemarks, remStep, h1]
  · simp [processRemarks, remStep, h1]
  · simp [processRemarks, remStep, h1, hpk]

theorem slp_law_witness :
    processRemarks ((str "SLP" ++ str "096") :: []) =
      { Raw := str "SLP" ++ str "096",
        Description := str "sea level pressure " ++
          fmt1fz ((if (96 : Int) ≥ 500 then 9000 else 10000) + 96) ++
          str " hPa" } :: processRemarks [] :=
  slp_law.1 (str "096") 96 [] (by decide) (by decide)

/-! ## C3: totality of the remarks decoder -/

theorem lookupRemarkCode_ne_nil {k d : Str} (h : lookupRemarkCode k = some d) :
    d ≠ [] := by
  unfold lookupRemarkCode at h
  rcases Option.map_eq_some'.mp h with ⟨pr, hfind, hd⟩
  have hmem := List.mem_of_find?_eq_some hfind
  have : ∀ pr ∈ remarkCodesList, pr.2 ≠ ([] : Str) := by decide
  subst hd
  exact this pr hmem


theorem append_ne_nil_left {A : Str} (B : Str) (h : A ≠ []) : A ++ B ≠ [] := by
  intro hc
  exact h (List.append_eq_nil.mp hc).1

theorem desc_lit_ne (p d : Str) (hd : d ≠ []) :
    ({ Raw := p, Description := d } : Remark).Description ≠ [] := hd

theorem remSixHour_desc {k lab p r} (h : remSixHour k lab p = some r) :
    r.Description ≠ [] := by
  unfold remSixHour at h
  repeat' split at h
  all_goals first
    | exact Option.noConfusion h
    | (cases h
       exact append_ne_nil_left _ (append_ne_nil_left _
         (append_ne_nil_left _ (append_ne_nil_left _ (by decide)))))

theorem remPress3_desc {p r} (h : remPress3 p = some r) : r.Description ≠ [] := by
  unfold remPress3 at h
  split at h
  · rcases Option.map_eq_some'.mp h with ⟨v, -, hv⟩
    cases hv
    exact append_ne_nil_left _ (append_ne_nil_left _ (by decide))
  · exact Option.noConfusion h

theorem remTendency_desc {p r} (h : remTendency p = some r) : r.Description ≠ [] := by
  unfold remTendency at h
  split at h
  · rcases Option.map_eq_some'.mp h with ⟨v, -, hv⟩
    cases hv
    exact append_ne_nil_left _ (append_ne_nil_left _
      (append_ne_nil_left _ (append_ne_nil_left _ (by decide))))
  · exact Option.noConfusion h

theorem remPrecip_desc {p r} (h : remPrecip p = some r) : r.Description ≠ [] := by
  unfold remPrecip at h
  repeat' split at h
  all_goals first
    | exact Option.noConfusion h
    | (cases h
       exact append_ne_nil_left _ (append_ne_nil_left _ (by decide)))

theorem remPrecip24_desc {p r} (h : remPrecip24 p = some r) : r.Description ≠ [] := by
  unfold remPrecip24 at h
  split at h
  · rcases Option.map_eq_some'.mp h with ⟨v, -, hv⟩
    cases hv
    exact append_ne_nil_left _ (append_ne_nil_left _ (by decide))
  · exact Option.noConfusion h

theorem remSnow_desc {p r} (h : remSnow p = some r) : r.Description ≠ [] := by
  unfold remSnow at h
  split at h
  · rcases Option.map_eq_some'.mp h with ⟨v, -, hv⟩
    cases hv
    exact append_ne_nil_left _ (append_ne_nil_left _ (by decide))
  · exact Option.noConfusion h

theorem remIce_desc {p r} (h : remIce p = some r) : r.Description ≠ [] := by
  unfold remIce at h
  repeat' split at h
  all_goals first
    | exact Option.noConfusion h
    | (rcases Option.map_eq_some'.mp h with ⟨v, -, hv⟩
       cases hv
       refine append_ne_nil_left _ (append_ne_nil_left _
         (append_ne_nil_left _ ?_))
       first
       | decide
       | (split <;> decide))

theorem remRecent_desc {p r} (h : remRecent p = some r) : r.Description ≠ [] := by
  unfold remRecent at h
  split at h
  · have hr := Option.some.inj h
    subst hr
    split
    · exact append_ne_nil_left _ (by decide)
    · exact desc_lit_ne _ _ (by decide)
  · exact Option.noConfusion h

theorem remRvrText_desc {p r} (h : remRvrText p = some r) : r.Description ≠ [] := by
  unfold remRvrText at h
  split at h
  · cases h
    exact desc_lit_ne _ _ (by decide)
  · exact Option.noConfusion h

theorem rem1b_desc {p r} (h : rem1.rem1b p = some r) : r.Description ≠ [] := by
  have orCases : ∀ (a : Option Remark) (f : Unit → Option Remark),
      a.orElse f = some r → a = some r ∨ f () = some r := by
    intro a f hof
    cases a <;> simp_all [Option.orElse]
  unfold rem1.rem1b at h
  rcases orCases _ _ h with h | h
  swap; · exact remRvrText_desc h
  rcases orCases _ _ h with h | h
  swap; · exact remRecent_desc h
  rcases orCases _ _ h with h | h
  swap; · exact remIce_desc h
  rcases orCases _ _ h with h | h
  swap; · exact remSnow_desc h
  rcases orCases _ _ h with h | h
  swap; · exact remPrecip24_desc h
  rcases orCases _ _ h with h | h
  swap; · exact remPrecip_desc h
  rcases orCases _ _ h with h | h
  swap; · exact remTendency_desc h
  rcases orCases _ _ h with h | h
  swap; · exact remPress3_desc h
  rcases orCases _ _ h with h | h
  · exact remSixHour_desc h
  · exact remSixHour_desc h

theorem rem1_desc {p r} (h : rem1 p = some r) : r.Description ≠ [] := by
  unfold rem1 at h
  repeat' split at h
  all_goals first
    | exact rem1b_desc h
    | (cases h
       first
       | exact append_ne_nil_left _ (append_ne_nil_left _ (by decide))
       | exact append_ne_nil_left _ (append_ne_nil_left _
           (append_ne_nil_left _ (append_ne_nil_left _ (by decide))))
       | exact desc_lit_ne _ _ (by decide))

theorem remTail_desc (p : Str) (nx : Option Str) :
    (remTail p nx).1.Description ≠ [] := by
  unfold remTail remTail.remFix
  repeat' split
  all_goals first
    | exact append_ne_nil_left _ (append_ne_nil_left _
        (append_ne_nil_left _ (append_ne_nil_left _ (by decide))))
    | exact append_ne_nil_left _ (append_ne_nil_left _ (by decide))
    | exact desc_lit_ne _ _ (by decide)
    | exact desc_lit_ne _ _ (lookupRemarkCode_ne_nil (by assumption))

theorem remStep_desc (p : Str) (nx : Option Str) :
    (remStep p nx).1.Description ≠ [] := by
  unfold remStep
  split
  · exact rem1_desc (by assumption)
  · exact remTail_desc p nx

theorem processRemarks_desc :
    ∀ (l : List Str) (r : Remark), r ∈ processRemarks l → r.Description ≠ []
  | [], r, h => by simp [processRemarks] at h
  | [p], r, h => by
      simp only [processRemarks, List.mem_singleton] at h
      subst h
      exact remStep_desc p none
  | [p, t1], r, h => by
      simp only [processRemarks] at h
      split at h
      · rcases List.mem_singleton.mp h with rfl
        exact remStep_desc p (some t1)
      · rcases List.mem_cons.mp h with rfl | htail
        · exact remStep_desc p (some t1)
        · exact processRemarks_desc [t1] r htail
  | p :: t1 :: t2 :: rest3, r, h => by
      simp only [processRemarks] at h
      split at h
      · split at h
        · rcases List.mem_cons.mp h with rfl | htail
          · exact append_ne_nil_left _ (append_ne_nil_left _
              (append_ne_nil_left _ (append_ne_nil_left _
                (append_ne_nil_left _ (append_ne_nil_left _
                  (append_ne_nil_left _ (by decide)))))))
          · exact processRemarks_desc rest3 r htail
        · split at h
          · rcases List.mem_cons.mp h with rfl | htail
            · exact remStep_desc p (some t1)
            · exact processRemarks_desc (t2 :: rest3) r htail
          · rcases List.mem_cons.mp h with rfl | htail
            · exact remStep_desc p (some t1)
            · exact processRemarks_desc (t1 :: t2 :: rest3) r htail
      · split at h
        · rcases List.mem_cons.mp h with rfl | htail
          · exact remStep_desc p (some t1)
          · exact processRemarks_desc (t2 :: rest3) r htail
        · rcases List.mem_cons.mp h with rfl | htail
          · exact remStep_desc p (some t1)
          · exact processRemarks_desc (t1 :: t2 :: rest3) r htail

/-- Trigger condition of the two-token `SNINCR` branch. -/
def sninTrig (nx : Option Str) : Bool :=
  match nx with
  | some x => goContains x (str "/") && (goSplit '/' x).length == 2
  | none => false

/-- Trigger condition of the two-token `CIG` branch. -/
def cigTrig (nx : Option Str) : Bool :=
  match nx with
  | some x => (goAtoi x).isSome
  | none => false

/-- A remark token (with its successor context) that matches none of the
recognisers of `processRemarks`: the peak-wind, single-token, two-token and
fixed-table branches all decline it. -/
def noRemarkMatch (p : Str) (rest : List Str) : Bool :=
  (match rest with
   | t1 :: t2 :: _ => pkWndM p t1 t2 == none
   | _ => true) &&
  rem1 p == none &&
  !(decide (p = str "SNINCR") && sninTrig rest.head?) &&
  !(decide (p = str "CIG") && cigTrig rest.head?) &&
  lookupRemarkCode p == none

theorem remTail_unknown {p : Str} {nx : Option Str}
    (hsn : (decide (p = str "SNINCR") && sninTrig nx) = false)
    (hcig : (decide (p = str "CIG") && cigTrig nx) = false)
    (hlook : lookupRemarkCode p = none) :
    remTail p nx = ({ Raw := p, Description := str "unknown remark code" }, false) := by
  have hfix : remTail.remFix p =
      ({ Raw := p, Description := str "unknown remark code" }, false) := by
    unfold remTail.remFix
    rw [hlook]
  unfold remTail
  cases nx with
  | none => exact hfix
  | some x =>
      dsimp only
      by_cases hp : p = str "SNINCR"
      · rw [if_pos hp]
        subst hp
        have hsn2 : sninTrig (some x) = false := by simpa using hsn
        unfold sninTrig at hsn2
        rcases Bool.and_eq_false_iff.mp hsn2 with hc | hl
        · simp only [hc, Bool.false_eq_true, if_false]
          exact hfix
        · by_cases hc2 : goContains x (str "/") = true
          · rw [if_pos hc2]
            have hlen : (goSplit '/' x).length ≠ 2 := by
              intro hl2
              rw [hl2] at hl
              simp at hl
            rcases hspl : goSplit '/' x with _ | ⟨a, _ | ⟨b, _ | ⟨c, q⟩⟩⟩ <;>
              simp_all [hfix]
          · rw [if_neg hc2]
            exact hfix
      · rw [if_neg hp]
        by_cases hc : p = str "CIG"
        · rw [if_pos hc]
          have hct : cigTrig (some x) = false := by
            subst hc
            simpa using hcig
          unfold cigTrig at hct
          rcases ha : goAtoi x with _ | v
          · exact hfix
          · simp [ha] at hct
        · rw [if_neg hc]
          exact hfix

theorem remStep_unknown {p : Str} {nx : Option Str} (hr : rem1 p = none)
    (hsn : (decide (p = str "SNINCR") && sninTrig nx) = false)
    (hcig : (decide (p = str "CIG") && cigTrig nx) = false)
    (hlook : lookupRemarkCode p = none) :
    remStep p nx = ({ Raw := p, Description := str "unknown remark code" }, false) := by
  unfold remStep
  rw [hr]
  exact remTail_unknown hsn hcig hlook

theorem processRemarks_unknown (p : Str) (rest : List Str)
    (h : noRemarkMatch p rest = true) :
    processRemarks (p :: rest) =
      { Raw := p, Description := str "unknown remark code" } ::
        processRemarks rest := by
  unfold noRemarkMatch at h
  simp only [Bool.and_eq_true, beq_iff_eq, Bool.not_eq_true'] at h
  obtain ⟨⟨⟨⟨hpk, hr⟩, hsn⟩, hcig⟩, hlook⟩ := h
  rcases rest with _ | ⟨t1, _ | ⟨t2, r3⟩⟩
  · simp only [List.head?_nil] at hsn hcig
    rw [show processRemarks [p] = [(remStep p none).1] from rfl,
        remStep_unknown hr hsn hcig hlook]
    rfl
  · simp only [List.head?_cons] at hsn hcig
    have hs := @remStep_unknown p (some t1) hr hsn hcig hlook
    rw [show processRemarks [p, t1] =
          (if (remStep p (some t1)).2 = true then [(remStep p (some t1)).1]
           else (remStep p (some t1)).1 :: processRemarks [t1]) from rfl, hs]
    rfl
  · simp only [List.head?_cons] at hsn hcig
    have hpk2 : pkWndM p t1 t2 = none := by
      dsimp only at hpk
      rw [beq_iff_eq] at hpk
      exact hpk
    have hs := @remStep_unknown p (some t1) hr hsn hcig hlook
    simp only [processRemarks]
    by_cases hg : goStarts p (str "PK") = true
    · rw [if_pos hg, hpk2]
      try dsimp only
      rw [hs]
      rfl
    · rw [if_neg hg]
      try dsimp only
      rw [hs]
      rfl

theorem processRemarks_consume (p : Str) (rest : List Str) :
    ∃ (r : Remark) (rest2 : List Str),
      processRemarks (p :: rest) = r :: processRemarks rest2 ∧ rest2 <:+ rest := by
  rcases rest with _ | ⟨t1, _ | ⟨t2, r3⟩⟩
  · exact ⟨(remStep p none).1, [], rfl, List.nil_suffix⟩
  · show ∃ r rest2,
      (if (remStep p (some t1)).2 = true then [(remStep p (some t1)).1]
       else (remStep p (some t1)).1 :: processRemarks [t1]) =
        r :: processRemarks rest2 ∧ rest2 <:+ [t1]
    by_cases hc : (remStep p (some t1)).2 = true
    · exact ⟨(remStep p (some t1)).1, [], by rw [if_pos hc]; rfl, List.nil_suffix⟩
    · exact ⟨(remStep p (some t1)).1, [t1], by rw [if_neg hc], List.suffix_refl [t1]⟩
  · simp only [processRemarks]
    by_cases hg : goStarts p (str "PK") = true
    · rw [if_pos hg]
      rcases hm : pkWndM p t1 t2 with _ | ⟨dir, sp, hh, mm⟩
      · by_cases hc : (remStep p (some t1)).2 = true
        · refine ⟨(remStep p (some t1)).1, t2 :: r3, ?_, ⟨[t1], rfl⟩⟩
          try dsimp only
          rw [if_pos hc]
        · refine ⟨(remStep p (some t1)).1, t1 :: t2 :: r3, ?_, List.suffix_refl _⟩
          try dsimp only
          rw [if_neg hc]
      · exact ⟨{ Raw := joinSp [p, t1, t2],
                 Description := str "peak wind " ++ dir ++ str "° at " ++ sp ++
                   str " knots at " ++ hh ++ str ":" ++ mm }, r3, rfl,
               ⟨[t1, t2], rfl⟩⟩
    · rw [if_neg hg]
      by_cases hc : (remStep p (some t1)).2 = true
      · refine ⟨(remStep p (some t1)).1, t2 :: r3, ?_, ⟨[t1], rfl⟩⟩
        try dsimp only
        rw [if_pos hc]
      · refine ⟨(remStep p (some t1)).1, t1 :: t2 :: r3, ?_, List.suffix_refl _⟩
        try dsimp only
        rw [if_neg hc]

/-- C3: `processRemarks` is total over the remark token list.  Every step
consumes the head token (plus, for the multi-token groups, a suffix of the
rest) and produces exactly one remark; every produced remark has a
non-empty description; and a token matching no recogniser (together with
its lookahead context) yields exactly the `unknown remark code` remark — in
particular the token `XYZ123` does. -/
theorem processRemarks_total :
    (∀ (l : List Str) (r : Remark), r ∈ processRemarks l → r.Description ≠ []) ∧
    (∀ (p : Str) (rest : List Str), ∃ (r : Remark) (rest2 : List Str),
        processRemarks (p :: rest) = r :: processRemarks rest2 ∧ rest2 <:+ rest) ∧
    (∀ (p : Str) (rest : List Str), noRemarkMatch p rest = true →
        processRemarks (p :: rest) =
          { Raw := p, Description := str "unknown remark code" } ::
            processRemarks rest) ∧
    processRemarks [str "XYZ123"] =
      [{ Raw := str "XYZ123", Description := str "unknown remark code" }] :=
  ⟨processRemarks_desc, processRemarks_consume, processRemarks_unknown, by decide⟩

theorem processRemarks_total_witness :
    processRemarks (str "XYZ123" :: []) =
      { Raw := str "XYZ123", Description := str "unknown remark code" } ::
        processRemarks [] ∧
    ({ Raw := str "XYZ123", Description := str "unknown remark code" } :
        Remark).Description ≠ [] :=
  ⟨processRemarks_total.2.2.1 (str "XYZ123") [] (by decide),
   processRemarks_total.1 [str "XYZ123"] _ (by decide)⟩

/-! ## Cloud-shaped tokens are never weather (C5) -/

theorem cloud_not_weather {s : Str} (h : hasCloudCover s = true) :
    isWeatherCode s = false := by
  simp [isWeatherCode, h]

theorem weather_not_cloud {s : Str} (h : isWeatherCode s = true) :
    hasCloudCover s = false := by
  by_contra hc
  simp only [Bool.not_eq_false] at hc
  rw [cloud_not_weather hc] at h
  exact Bool.noConfusion h

theorem parseForecastElement_weather (f : Forecast) (p : Str) :
    ∀ w ∈ (parseForecastElement f p).Weather,
      w ∈ f.Weather ∨ hasCloudCover w = false := by
  intro w hw
  unfold parseForecastElement at hw
  repeat' split at hw
  all_goals try exact Or.inl hw
  rename_i hnc
  rcases List.mem_append.1 hw with h1 | h1
  · exact Or.inl h1
  · simp only [List.mem_singleton] at h1
    subst h1
    simp only [Bool.not_eq_true'] at hnc
    exact Or.inr hnc

theorem mStepP_weather {m : METAR} {pf : Bool} {part : Str} {m2 : METAR}
    {pf2 : Bool} (hm : mStepP m pf part = (m2, pf2)) :
    m2.Weather = m.Weather := by
  unfold mStepP at hm
  repeat' split at hm
  all_goals (injection hm with h1 h2; subst h1)
  all_goals rfl

theorem mStep1_weather {m : METAR} {pf : Bool} {part : Str} {m2 : METAR}
    {pf2 : Bool} (hm : mStep1 m pf part = (m2, pf2)) :
    ∀ w ∈ m2.Weather, w ∈ m.Weather ∨ hasCloudCover w = false := by
  intro w hw
  unfold mStep1 at hm
  repeat' split at hm
  all_goals try (rw [mStepP_weather hm] at hw; exact Or.inl hw)
  all_goals (injection hm with h1 h2; subst h1)
  all_goals try exact Or.inl hw
  rename_i hiw
  rcases List.mem_append.1 hw with h1 | h1
  · exact Or.inl h1
  · simp only [List.mem_singleton] at h1
    subst h1
    exact Or.inr (weather_not_cloud hiw)

theorem mStepFull_weather {m : METAR} {pf : Bool} {part : Str}
    {next : Option Str} {m2 : METAR} {pf2 : Bool} {c : Bool}
    (hm : mStepFull m pf part next = ((m2, pf2), c)) :
    ∀ w ∈ m2.Weather, w ∈ m.Weather ∨ hasCloudCover w = false := by
  unfold mStepFull at hm
  repeat' split at hm
  all_goals (injection hm with h1 h2)
  all_goals try exact fun w hw => mStep1_weather h1 w hw
  all_goals (injection h1 with h1a h1b; subst h1a)
  all_goals intro w hw
  all_goals exact Or.inl hw

theorem mLoop_weather : ∀ (l : List Str) (m : METAR) (pf : Bool),
    (∀ w ∈ m.Weather, hasCloudCover w = false) →
    ∀ w ∈ (mLoop m pf l).Weather, hasCloudCover w = false
  | [], _, _, h => h
  | [part], m, pf, h => by
      intro w hw
      simp only [mLoop] at hw
      rcases hr : mStepFull m pf part none with ⟨⟨mm, pp⟩, cc⟩
      rw [hr] at hw
      rcases mStepFull_weather hr w hw with h1 | h1
      · exact h w h1
      · exact h1
  | part :: nx :: rest2, m, pf, h => by
      intro w hw
      simp only [mLoop] at hw
      rcases hr : mStepFull m pf part (some nx) with ⟨⟨mm, pp⟩, cc⟩
      rw [hr] at hw
      have hinv : ∀ w2 ∈ mm.Weather, hasCloudCover w2 = false := by
        intro w2 hw2
        rcases mStepFull_weather hr w2 hw2 with h1 | h1
        · exact h w2 h1
        · exact h1
      cases cc with
      | true =>
          simp only [if_pos] at hw
          exact mLoop_weather rest2 mm pp hinv w hw
      | false =>
          simp only [Bool.false_eq_true, if_neg, if_false] at hw
          exact mLoop_weather (nx :: rest2) mm pp hinv w hw

theorem decodeMETAR_weather (now : GoNow) (raw : Str) :
    ∀ w ∈ (DecodeMETAR now raw).Weather, hasCloudCover w = false := by
  intro w hw
  simp only [DecodeMETAR] at hw
  repeat' split at hw
  all_goals try exact absurd hw (List.not_mem_nil w)
  all_goals
    refine mLoop_weather _ _ _ (fun w2 hw2 => ?_) w hw
  all_goals
  · repeat' split at hw2
    all_goals exact absurd hw2 (List.not_mem_nil w2)

theorem baseFold_weather : ∀ (l : List Str) (f : Forecast),
    (∀ w ∈ f.Weather, hasCloudCover w = false) →
    ∀ w ∈ (baseFold f l).Weather, hasCloudCover w = false
  | [], _, h => h
  | p :: r, f, h => by
      simp only [baseFold]
      split
      · exact baseFold_weather r f h
      · refine baseFold_weather r _ (fun w hw => ?_)
        rcases parseForecastElement_weather f p w hw with h1 | h1
        · exact h w h1
        · exact h1

theorem consumeBody_weather : ∀ (l : List Str) (f : Forecast),
    (∀ w ∈ f.Weather, hasCloudCover w = false) →
    ∀ w ∈ (consumeBody f l).1.Weather, hasCloudCover w = false
  | [], _, h => h
  | p :: r, f, h => by
      simp only [consumeBody]
      split
      · exact h
      · refine consumeBody_weather r _ (fun w hw => ?_)
        rcases parseForecastElement_weather f p w hw with h1 | h1
        · exact h w h1
        · exact h1

theorem setLastTo_weather : ∀ (l : List Forecast) (t : Int),
    (∀ f ∈ l, ∀ w ∈ f.Weather, hasCloudCover w = false) →
    ∀ f ∈ setLastTo l t, ∀ w ∈ f.Weather, hasCloudCover w = false
  | [], _, _ => by simp [setLastTo]
  | [f], t, h => by
      simp only [setLastTo]
      intro g hg w hw
      simp only [List.mem_singleton] at hg
      subst hg
      exact h f (List.mem_singleton.2 rfl) w hw
  | f :: g2 :: r, t, h => by
      simp only [setLastTo]
      intro g hg w hw
      rcases List.mem_cons.1 hg with hg | hg
      · subst hg
        exact h g (List.mem_cons_self g _) w hw
      · exact setLastTo_weather (g2 :: r) t
          (fun f2 hf2 => h f2 (List.mem_cons_of_mem f hf2)) g hg w hw

theorem procGroups_weather (now : GoNow) (vFrom vTo : Int) :
    ∀ (fuel : Nat) (toks : List Str) (acc : List Forecast),
      (∀ f ∈ acc, ∀ w ∈ f.Weather, hasCloudCover w = false) →
      ∀ f ∈ procGroups now vFrom vTo fuel acc toks, ∀ w ∈ f.Weather,
        hasCloudCover w = false
  | fuel, [], acc, h => by
      cases fuel <;> simpa [procGroups] using h
  | 0, _ :: _, acc, h => by simpa [procGroups] using h
  | fuel + 1, part :: rest, acc, h => by
      simp only [procGroups]
      repeat' split
      all_goals try exact procGroups_weather now vFrom vTo fuel _ _ h
      all_goals
        refine procGroups_weather now vFrom vTo fuel _ _ (fun f hf w hw => ?_)
      all_goals rcases List.mem_append.1 hf with hf | hf
      all_goals try
        (simp only [List.mem_singleton] at hf; subst hf;
         exact consumeBody_weather _ _
           (fun w0 hw0 => absurd hw0 (List.not_mem_nil w0)) w hw)
      all_goals first
        | exact h f hf w hw
        | exact setLastTo_weather acc _ h f hf w hw

theorem decodeTAF_weather (now : GoNow) (raw : Str) :
    ∀ f ∈ (DecodeTAF now raw).Forecasts, ∀ w ∈ f.Weather,
      hasCloudCover w = false := by
  intro f hf
  simp only [DecodeTAF] at hf
  repeat' split at hf
  all_goals try exact absurd hf (List.not_mem_nil f)
  all_goals first
    | exact setLastTo_weather _ _
        (procGroups_weather now _ _ _ _ _ (fun g hg w hw => by
          simp only [List.mem_singleton] at hg
          subst hg
          exact baseFold_weather _ _
            (fun w0 hw0 => absurd hw0 (List.not_mem_nil w0)) w hw)) f hf
    | exact procGroups_weather now _ _ _ _ _ (fun g hg w hw => by
        simp only [List.mem_singleton] at hg
        subst hg
        exact baseFold_weather _ _
          (fun w0 hw0 => absurd hw0 (List.not_mem_nil w0)) w hw) f hf

/-- C5: a token with a cloud-coverage prefix (`SKC`/`CLR`/`FEW`/`SCT`/
`BKN`/`OVC`) is never classified as a weather phenomenon, even when it
contains a weather-code substring: `isWeatherCode` rejects it, the TAF
element classifier leaves the `Weather` list unchanged on it, and no
decoded METAR or TAF forecast ever carries a cloud-shaped token in its
`Weather` list. -/
theorem cloud_prefix_never_weather :
    (∀ s : Str, hasCloudCover s = true → isWeatherCode s = false) ∧
    (∀ (f : Forecast) (p : Str), hasCloudCover p = true →
        (parseForecastElement f p).Weather = f.Weather) ∧
    (∀ (now : GoNow) (raw : Str) (w : Str),
        w ∈ (DecodeMETAR now raw).Weather → hasCloudCover w = false) ∧
    (∀ (now : GoNow) (raw : Str) (f : Forecast) (w : Str),
        f ∈ (DecodeTAF now raw).Forecasts → w ∈ f.Weather →
        hasCloudCover w = false) := by
  refine ⟨fun s h => cloud_not_weather h, ?_,
    fun now raw w hw => decodeMETAR_weather now raw w hw,
    fun now raw f w hf hw => decodeTAF_weather now raw f hf w hw⟩
  intro f p hp
  unfold parseForecastElement
  repeat' split
  all_goals try rfl
  rename_i hnc
  rw [hp] at hnc
  exact absurd hnc (by decide)

theorem cloud_prefix_never_weather_witness :
    isWeatherCode (str "BKN040") = false ∧
    (parseForecastElement {} (str "SCTRA")).Weather = Forecast.Weather {} ∧
    hasCloudCover (str "RA") = false ∧
    hasCloudCover (str "SN") = false := by
  have h := cloud_prefix_never_weather
  exact ⟨h.1 (str "BKN040") (by decide),
    h.2.1 {} (str "SCTRA") (by decide),
    h.2.2.1 ⟨2026, 10, 11⟩ (str "KBOS 110552Z RA") (str "RA") (by decide),
    h.2.2.2 ⟨2026, 10, 11⟩ (str "TAF KBOS 110547Z 1106/1212 14012KT SN")
      ((DecodeTAF ⟨2026, 10, 11⟩
          (str "TAF KBOS 110547Z 1106/1212 14012KT SN")).Forecasts.headD {})
      (str "SN") (by decide) (by decide)⟩


/-! ## Digit-character tooling and pressure dedup (C2) -/

theorem beq_digit_false {c a : Char} (hc : isDigit c = true)
    (ha : isDigit a = false) : (a == c) = false := by
  cases h : a == c
  · rfl
  · have := eq_of_beq h
    subst this
    rw [hc] at ha
    exact Bool.noConfusion ha

theorem beq_digit_false2 {c a : Char} (hc : isDigit c = true)
    (ha : isDigit a = false) : (c == a) = false := by
  cases h : c == a
  · rfl
  · have := eq_of_beq h
    subst this
    rw [hc] at ha
    exact Bool.noConfusion ha


theorem goContains_cons (k : Str) (c : Char) (t : Str) :
    goContains (c :: t) k = (k.isPrefixOf (c :: t) || goContains t k) := by
  simp [goContains, List.tails]

theorem goContains_digits {kh : Char} {kt : Str} (hh : isDigit kh = false) :
    ∀ ds : Str, (∀ c ∈ ds, isDigit c = true) →
      goContains ds (kh :: kt) = false
  | [], _ => rfl
  | c :: t, h => by
      rw [goContains_cons]
      have hc : isDigit c = true := h c (List.mem_cons_self c t)
      have h1 : (kh :: kt).isPrefixOf (c :: t) = false := by
        simp [List.isPrefixOf, beq_digit_false hc hh]
      rw [h1, goContains_digits hh t (fun x hx => h x (List.mem_cons_of_mem c hx))]
      rfl

theorem goContains_head {kh h : Char} {kt ds : Str} (hne : (kh == h) = false)
    (hhd : isDigit kh = false) (hds : ∀ c ∈ ds, isDigit c = true) :
    goContains (h :: ds) (kh :: kt) = false := by
  rw [goContains_cons]
  have h1 : (kh :: kt).isPrefixOf (h :: ds) = false := by
    simp [List.isPrefixOf, hne]
  rw [h1, goContains_digits hhd ds hds]
  rfl

theorem isWeatherCode_digitTok {h : Char} {d1 d2 d3 d4 : Char}
    (hself : hasCloudCover (h :: [d1, d2, d3, d4]) = false)
    (hkeys : ∀ k ∈ weatherCodesKeys, k ≠ [] ∧ (k.headD ' ' == h) = false ∧
      isDigit (k.headD ' ') = false)
    (hd : ∀ c ∈ [d1, d2, d3, d4], isDigit c = true) :
    isWeatherCode (h :: [d1, d2, d3, d4]) = false := by
  rw [isWeatherCode, if_neg (by rw [hself]; exact Bool.noConfusion)]
  rw [List.any_eq_false]
  intro k hk
  obtain ⟨hne0, hne, hhd⟩ := hkeys k hk
  match k, hne0, hne, hhd with
  | kh :: kt, _, hne, hhd =>
      simp only [List.headD_cons] at hne hhd
      simp only [Bool.not_eq_true]
      exact goContains_head hne hhd hd

theorem digitVal_le {c : Char} (hc : isDigit c = true) : digitVal c ≤ 9 := by
  simp only [isDigit, Char.isDigit, Bool.and_eq_true, decide_eq_true_eq] at hc
  obtain ⟨hlo, hhi⟩ := hc
  have hhi2 : c.val.toNat ≤ 57 := hhi
  have hlo2 : 48 ≤ c.val.toNat := hlo
  have hz : ('0'.val).toNat = 48 := rfl
  simp only [digitVal, Char.toNat]
  omega

theorem goAtoi_four {d1 d2 d3 d4 : Char} (h1 : isDigit d1 = true)
    (h2 : isDigit d2 = true) (h3 : isDigit d3 = true)
    (h4 : isDigit d4 = true) :
    goAtoi [d1, d2, d3, d4] = some ((natOfDigits [d1, d2, d3, d4] : Nat) : Int) ∧
      (natOfDigits [d1, d2, d3, d4] : Int) ≤ 9999 := by
  have hv : (natOfDigits [d1, d2, d3, d4] : Int) ≤ 9999 := by
    have b1 := digitVal_le h1
    have b2 := digitVal_le h2
    have b3 := digitVal_le h3
    have b4 := digitVal_le h4
    simp only [natOfDigits, List.foldl]
    push_cast
    omega
  refine ⟨?_, hv⟩
  have hcore : atoiCore false [d1, d2, d3, d4] =
      some ((natOfDigits [d1, d2, d3, d4] : Nat) : Int) := by
    have hall : ([d1, d2, d3, d4] : Str).all isDigit = true := by
      simp [h1, h2, h3, h4]
    unfold atoiCore
    rw [if_neg (by simp), if_pos hall]
    simp only [Bool.false_eq_true, if_false]
    split
    · rename_i hcond
      exfalso
      have h63 : ((2 : Int) ^ 63) = 9223372036854775808 := by norm_num
      have hge : (0 : Int) ≤ (natOfDigits [d1, d2, d3, d4] : Int) :=
        Int.natCast_nonneg _
      rcases Bool.or_eq_true_iff.1 hcond with hx | hx <;>
        (rw [decide_eq_true_eq] at hx; rw [h63] at hx; omega)
    · rfl
  unfold goAtoi
  split
  · rename_i r heq
    rw [List.cons.injEq] at heq
    rw [heq.1] at h1
    exact absurd h1 (by decide)
  · rename_i r heq
    rw [List.cons.injEq] at heq
    rw [heq.1] at h1
    exact absurd h1 (by decide)
  · exact hcore



theorem four_digits {ds : Str} (h : (ds.length == 4 && ds.all isDigit) = true) :
    ∃ a b c d, ds = [a, b, c, d] ∧ isDigit a = true ∧ isDigit b = true ∧
      isDigit c = true ∧ isDigit d = true := by
  rcases Bool.and_eq_true_iff.1 h with ⟨hl, hd⟩
  rcases ds with _ | ⟨a, _ | ⟨b, _ | ⟨c, _ | ⟨d, _ | ⟨e, t⟩⟩⟩⟩⟩ <;>
    first
      | (exfalso
         simp only [List.length_cons, List.length_nil, beq_iff_eq] at hl
         omega)
      | (simp only [List.all_cons, List.all_nil, Bool.and_eq_true,
           Bool.and_true] at hd
         exact ⟨_, _, _, _, rfl, hd.1, hd.2.1, hd.2.2.1, hd.2.2.2⟩)

theorem mStepP_flag {m : METAR} {q : Str} {m2 : METAR} {pf2 : Bool}
    (hm : mStepP m false q = (m2, pf2)) :
    pf2 = ((tempRegexM q).isNone && (tempOnlyRegexM q).isNone &&
      (if q.length > 1 && q.headD ' ' == 'Q' then (goAtoi (q.drop 1)).isSome
       else (pressureRegexM q).isSome)) := by
  unfold mStepP at hm
  repeat' split at hm
  all_goals (injection hm with h1 h2; subst h2)
  all_goals try simp_all
  by_cases hl : 1 < List.length q
  · exact Or.inl (Or.inr
      (‹1 < List.length q → ¬(List.head? q).getD ' ' = 'Q'› hl))
  · exact Or.inl (Or.inl (by omega))

theorem mStep1_flag {m : METAR} {q : Str} {m2 : METAR} {pf2 : Bool}
    (hm : mStep1 m false q = (m2, pf2)) : pf2 = stepSetsP q := by
  unfold mStep1 at hm
  repeat' split at hm
  all_goals first
    | (rw [mStepP_flag hm]; simp_all [stepSetsP])
    | (injection hm with h1 h2; subst h2; simp_all [stepSetsP])
  intro hA hB
  rcases ‹(runwayClearedRegexM q).isSome = true ∨
      (runwayCondRegexM q).isSome = true› with hx | hx
  · rw [hA] at hx
    exact absurd hx (by simp)
  · rw [hB] at hx
    exact absurd hx (by simp)

theorem mStepP_keep {m : METAR} {q : Str} {m2 : METAR} {pf2 : Bool}
    (hm : mStepP m false q = (m2, pf2)) (h : pf2 = false) :
    m2.Pressure = m.Pressure ∧ m2.PressureUnit = m.PressureUnit := by
  unfold mStepP at hm
  repeat' split at hm
  all_goals (injection hm with h1 h2; subst h1)
  all_goals first
    | exact ⟨rfl, rfl⟩
    | (rw [h] at h2; exact Bool.noConfusion h2)

theorem mStep1_keep {m : METAR} {q : Str} {m2 : METAR} {pf2 : Bool}
    (hm : mStep1 m false q = (m2, pf2)) (h : pf2 = false) :
    m2.Pressure = m.Pressure ∧ m2.PressureUnit = m.PressureUnit := by
  unfold mStep1 at hm
  repeat' split at hm
  all_goals try exact mStepP_keep hm h
  all_goals (injection hm with h1 h2; subst h1)
  all_goals exact ⟨rfl, rfl⟩

theorem mStepP_true {m : METAR} {q : Str} {m2 : METAR} {pf2 : Bool}
    (hm : mStepP m true q = (m2, pf2)) :
    pf2 = true ∧ m2.Pressure = m.Pressure ∧ m2.PressureUnit = m.PressureUnit := by
  unfold mStepP at hm
  repeat' split at hm
  all_goals try (injection hm with h1 h2; subst h1; subst h2)
  all_goals first
    | exact ⟨rfl, rfl, rfl⟩
    | simp_all

theorem mStep1_true {m : METAR} {q : Str} {m2 : METAR} {pf2 : Bool}
    (hm : mStep1 m true q = (m2, pf2)) :
    pf2 = true ∧ m2.Pressure = m.Pressure ∧ m2.PressureUnit = m.PressureUnit := by
  unfold mStep1 at hm
  repeat' split at hm
  all_goals try exact mStepP_true hm
  all_goals (injection hm with h1 h2; subst h1; subst h2)
  all_goals exact ⟨rfl, rfl, rfl⟩

theorem mStepFull_false {m : METAR} {q : Str} {next : Option Str} {m2 : METAR}
    {pf2 : Bool} {c : Bool}
    (hm : mStepFull m false q next = ((m2, pf2), c)) (hq : stepSetsP q = false) :
    pf2 = false ∧ m2.Pressure = m.Pressure ∧ m2.PressureUnit = m.PressureUnit := by
  unfold mStepFull at hm
  repeat' split at hm
  all_goals (injection hm with h1 h2)
  all_goals try
    (have hf : pf2 = false := by rw [mStep1_flag h1, hq]
     exact ⟨hf, mStep1_keep h1 hf⟩)
  all_goals (injection h1 with h1a h1b; subst h1a; subst h1b)
  all_goals exact ⟨rfl, rfl, rfl⟩

theorem mStepFull_true {m : METAR} {q : Str} {next : Option Str} {m2 : METAR}
    {pf2 : Bool} {c : Bool}
    (hm : mStepFull m true q next = ((m2, pf2), c)) :
    pf2 = true ∧ m2.Pressure = m.Pressure ∧ m2.PressureUnit = m.PressureUnit := by
  unfold mStepFull at hm
  repeat' split at hm
  all_goals (injection hm with h1 h2)
  all_goals try exact mStep1_true h1
  all_goals (injection h1 with h1a h1b; subst h1a; subst h1b)
  all_goals exact ⟨rfl, rfl, rfl⟩

theorem mStepFull_consume {m : METAR} {pf : Bool} {q : Str} {nx : Str}
    {m2 : METAR} {pf2 : Bool}
    (hm : mStepFull m pf q (some nx) = ((m2, pf2), true)) :
    windVarRegexB nx = true ∨ goEnds nx (str "SM") = true := by
  unfold mStepFull at hm
  repeat' split at hm
  all_goals (injection hm with h1 h2)
  all_goals try exact Bool.noConfusion h2
  all_goals simp_all

theorem digits_of_list {d1 d2 d3 d4 : Char} (h1 : isDigit d1 = true)
    (h2 : isDigit d2 = true) (h3 : isDigit d3 = true)
    (h4 : isDigit d4 = true) : ∀ c ∈ [d1, d2, d3, d4], isDigit c = true := by
  intro c hc
  simp only [List.mem_cons, List.not_mem_nil, or_false] at hc
  rcases hc with rfl | rfl | rfl | rfl
  · exact h1
  · exact h2
  · exact h3
  · exact h4

theorem mStep1_set_q {m : METAR} {d1 d2 d3 d4 : Char} (h1 : isDigit d1 = true)
    (h2 : isDigit d2 = true) (h3 : isDigit d3 = true)
    (h4 : isDigit d4 = true) :
    mStep1 m false ('Q' :: [d1, d2, d3, d4]) =
      (mSetPressure m ((natOfDigits [d1, d2, d3, d4] : Int) : ℚ) (str "hPa"),
        true) := by
  have hds := digits_of_list h1 h2 h3 h4
  have hA := (goAtoi_four h1 h2 h3 h4).1
  have hvm : visRegexMB ('Q' :: [d1, d2, d3, d4]) = false := by
    simp [visRegexMB, goEnds, str, List.isSuffixOf, List.isPrefixOf,
      beq_digit_false h4 (by decide : isDigit 'M' = false)]
  have hvim : isVisibilityInMeters ('Q' :: [d1, d2, d3, d4]) = false := by
    simp [isVisibilityInMeters, visRegexNumB, visRegexDirB, ndvRegexB, goEnds,
      str, List.isSuffixOf, List.isPrefixOf,
      (by decide : isDigit 'Q' = false),
      beq_digit_false h4 (by decide : isDigit 'V' = false)]
  have hwc : isWeatherCode ('Q' :: [d1, d2, d3, d4]) = false :=
    isWeatherCode_digitTok rfl (by decide) hds
  have hws : goContains ('Q' :: [d1, d2, d3, d4]) (str "WS") = false :=
    goContains_head (by decide) (by decide) hds
  have hvv : isVerticalVisibility ('Q' :: [d1, d2, d3, d4]) = false := rfl
  have hrc : runwayClearedRegexM ('Q' :: [d1, d2, d3, d4]) = none := rfl
  have hrd : runwayCondRegexM ('Q' :: [d1, d2, d3, d4]) = none := rfl
  have hrvr : rvrRegexB ('Q' :: [d1, d2, d3, d4]) = false := rfl
  have hcl : cloudRegexM ('Q' :: [d1, d2, d3, d4]) = none := rfl
  have ht1 : tempRegexM ('Q' :: [d1, d2, d3, d4]) = none := rfl
  have ht2 : tempOnlyRegexM ('Q' :: [d1, d2, d3, d4]) = none := rfl
  unfold mStep1 mStepP
  repeat' split
  all_goals simp_all

theorem mStep1_set_a {m : METAR} {d1 d2 d3 d4 : Char} (h1 : isDigit d1 = true)
    (h2 : isDigit d2 = true) (h3 : isDigit d3 = true)
    (h4 : isDigit d4 = true) :
    mStep1 m false ('A' :: [d1, d2, d3, d4]) =
      (mSetPressure m (mkRat (natOfDigits [d1, d2, d3, d4]) 100) (str "inHg"),
        true) := by
  have hds := digits_of_list h1 h2 h3 h4
  have hvm : visRegexMB ('A' :: [d1, d2, d3, d4]) = false := by
    simp [visRegexMB, goEnds, str, List.isSuffixOf, List.isPrefixOf,
      beq_digit_false h4 (by decide : isDigit 'M' = false)]
  have hvim : isVisibilityInMeters ('A' :: [d1, d2, d3, d4]) = false := by
    simp [isVisibilityInMeters, visRegexNumB, visRegexDirB, ndvRegexB, goEnds,
      str, List.isSuffixOf, List.isPrefixOf,
      (by decide : isDigit 'A' = false),
      beq_digit_false h4 (by decide : isDigit 'V' = false)]
  have hwc : isWeatherCode ('A' :: [d1, d2, d3, d4]) = false :=
    isWeatherCode_digitTok rfl (by decide) hds
  have hws : goContains ('A' :: [d1, d2, d3, d4]) (str "WS") = false :=
    goContains_head (by decide) (by decide) hds
  have hpr : pressureRegexM ('A' :: [d1, d2, d3, d4]) =
      some (natOfDigits [d1, d2, d3, d4]) := by
    simp [pressureRegexM, h1, h2, h3, h4]
  have hvv : isVerticalVisibility ('A' :: [d1, d2, d3, d4]) = false := rfl
  have hrc : runwayClearedRegexM ('A' :: [d1, d2, d3, d4]) = none := rfl
  have hrd : runwayCondRegexM ('A' :: [d1, d2, d3, d4]) = none := rfl
  have hrvr : rvrRegexB ('A' :: [d1, d2, d3, d4]) = false := rfl
  have hcl : cloudRegexM ('A' :: [d1, d2, d3, d4]) = none := rfl
  have ht1 : tempRegexM ('A' :: [d1, d2, d3, d4]) = none := rfl
  have ht2 : tempOnlyRegexM ('A' :: [d1, d2, d3, d4]) = none := rfl
  unfold mStep1 mStepP
  repeat' split
  all_goals simp_all

theorem mStepFull_set_q {m : METAR} {next : Option Str} {d1 d2 d3 d4 : Char}
    (h1 : isDigit d1 = true) (h2 : isDigit d2 = true) (h3 : isDigit d3 = true)
    (h4 : isDigit d4 = true) :
    mStepFull m false ('Q' :: [d1, d2, d3, d4]) next =
      ((mSetPressure m ((natOfDigits [d1, d2, d3, d4] : Int) : ℚ) (str "hPa"),
        true), false) := by
  have hstep := @mStep1_set_q m d1 d2 d3 d4 h1 h2 h3 h4
  have hproc : ¬(('Q' :: [d1, d2, d3, d4] : Str) = str "__PROCESSED__") := by
    intro h
    have h2 : (str "__PROCESSED__").length = 5 := by
      rw [← h]
      rfl
    exact absurd h2 (by decide)
  have hsp : specialRegexB ('Q' :: [d1, d2, d3, d4]) = false := rfl
  have hwr : windRegexM ('Q' :: [d1, d2, d3, d4]) = none := by
    simp [windRegexM, goEnds, str, List.isSuffixOf, List.isPrefixOf,
      beq_digit_false h4 (by decide : isDigit 'T' = false)]
  have hst : goStarts ('Q' :: [d1, d2, d3, d4]) (str "WS") = false := rfl
  have hlen : ((('Q' :: [d1, d2, d3, d4]) : Str).length == 1) = false := rfl
  unfold mStepFull
  repeat' split
  all_goals simp_all

theorem mStepFull_set_a {m : METAR} {next : Option Str} {d1 d2 d3 d4 : Char}
    (h1 : isDigit d1 = true) (h2 : isDigit d2 = true) (h3 : isDigit d3 = true)
    (h4 : isDigit d4 = true) :
    mStepFull m false ('A' :: [d1, d2, d3, d4]) next =
      ((mSetPressure m (mkRat (natOfDigits [d1, d2, d3, d4]) 100) (str "inHg"),
        true), false) := by
  have hstep := @mStep1_set_a m d1 d2 d3 d4 h1 h2 h3 h4
  have hproc : ¬(('A' :: [d1, d2, d3, d4] : Str) = str "__PROCESSED__") := by
    intro h
    have h2 : (str "__PROCESSED__").length = 5 := by
      rw [← h]
      rfl
    exact absurd h2 (by decide)
  have hsp : specialRegexB ('A' :: [d1, d2, d3, d4]) = false := by
    simp [specialRegexB, str,
      beq_digit_false2 h1 (by decide : isDigit 'U' = false)]
  have hwr : windRegexM ('A' :: [d1, d2, d3, d4]) = none := by
    simp [windRegexM, goEnds, str, List.isSuffixOf, List.isPrefixOf,
      beq_digit_false h4 (by decide : isDigit 'T' = false)]
  have hst : goStarts ('A' :: [d1, d2, d3, d4]) (str "WS") = false := rfl
  have hlen : ((('A' :: [d1, d2, d3, d4]) : Str).length == 1) = false := rfl
  unfold mStepFull
  repeat' split
  all_goals simp_all

theorem mStepFull_set {m : METAR} {p : Str} {next : Option Str}
    (hp : (isQTok p || isATok p) = true) :
    mStepFull m false p next =
      ((mSetPressure m (pressTokVal p) (pressTokUnit p), true), false) := by
  rcases Bool.or_eq_true_iff.1 hp with hq | ha
  · unfold isQTok at hq
    split at hq
    · rename_i ds
      obtain ⟨d1, d2, d3, d4, rfl, g1, g2, g3, g4⟩ := four_digits hq
      exact mStepFull_set_q g1 g2 g3 g4
    · exact Bool.noConfusion hq
  · unfold isATok at ha
    split at ha
    · rename_i ds
      obtain ⟨d1, d2, d3, d4, rfl, g1, g2, g3, g4⟩ := four_digits ha
      exact mStepFull_set_a g1 g2 g3 g4
    · exact Bool.noConfusion ha

theorem mLoop_true : ∀ (l : List Str) (m : METAR),
    (mLoop m true l).Pressure = m.Pressure ∧
      (mLoop m true l).PressureUnit = m.PressureUnit
  | [], _ => ⟨rfl, rfl⟩
  | [part], m => by
      simp only [mLoop]
      rcases hr : mStepFull m true part none with ⟨⟨mm, pp⟩, cc⟩
      obtain ⟨hf, hP, hU⟩ := mStepFull_true hr
      exact ⟨hP, hU⟩
  | part :: nx :: rest2, m => by
      simp only [mLoop]
      rcases hr : mStepFull m true part (some nx) with ⟨⟨mm, pp⟩, cc⟩
      obtain ⟨hf, hP, hU⟩ := mStepFull_true hr
      subst hf
      cases cc with
      | true =>
          simp only [if_pos]
          obtain ⟨hP2, hU2⟩ := mLoop_true rest2 mm
          exact ⟨hP2.trans hP, hU2.trans hU⟩
      | false =>
          simp only [Bool.false_eq_true, if_neg, if_false]
          obtain ⟨hP2, hU2⟩ := mLoop_true (nx :: rest2) mm
          exact ⟨hP2.trans hP, hU2.trans hU⟩

theorem pressTok_not_lookahead {p : Str} (hp : (isQTok p || isATok p) = true) :
    windVarRegexB p = false ∧ goEnds p (str "SM") = false := by
  rcases Bool.or_eq_true_iff.1 hp with hq | hq
  · unfold isQTok at hq
    split at hq
    · rename_i ds
      obtain ⟨d1, d2, d3, d4, rfl, g1, g2, g3, g4⟩ := four_digits hq
      refine ⟨rfl, ?_⟩
      simp [goEnds, str, List.isSuffixOf, List.isPrefixOf,
        beq_digit_false g4 (by decide : isDigit 'M' = false)]
    · exact Bool.noConfusion hq
  · unfold isATok at hq
    split at hq
    · rename_i ds
      obtain ⟨d1, d2, d3, d4, rfl, g1, g2, g3, g4⟩ := four_digits hq
      refine ⟨rfl, ?_⟩
      simp [goEnds, str, List.isSuffixOf, List.isPrefixOf,
        beq_digit_false g4 (by decide : isDigit 'M' = false)]
    · exact Bool.noConfusion hq

theorem mLoop_firstWins : ∀ (l1 : List Str) (p : Str) (l2 : List Str)
    (m : METAR), (∀ q ∈ l1, stepSetsP q = false) →
    (isQTok p || isATok p) = true →
    (mLoop m false (l1 ++ p :: l2)).Pressure = pressTokVal p ∧
      (mLoop m false (l1 ++ p :: l2)).PressureUnit = pressTokUnit p
  | [], p, [], m, _, hp => by
      simp only [List.nil_append, mLoop]
      rw [@mStepFull_set _ _ none hp]
      exact ⟨rfl, rfl⟩
  | [], p, x :: xs, m, _, hp => by
      simp only [List.nil_append, mLoop]
      rw [@mStepFull_set _ _ (some x) hp]
      simp only [Bool.false_eq_true, if_neg, if_false]
      obtain ⟨hP, hU⟩ := mLoop_true (x :: xs) (mSetPressure m (pressTokVal p)
        (pressTokUnit p))
      exact ⟨hP.trans rfl, hU.trans rfl⟩
  | q :: l1no, p, l2, m, h1, hp => by
      have hq : stepSetsP q = false := h1 q (List.mem_cons_self q _)
      have h1r : ∀ r ∈ l1no, stepSetsP r = false :=
        fun r hr => h1 r (List.mem_cons_of_mem q hr)
      cases l1no with
      | nil =>
          simp only [List.cons_append, List.nil_append, mLoop]
          rcases hr : mStepFull m false q (some p) with ⟨⟨mm, pp⟩, cc⟩
          obtain ⟨hf, _, _⟩ := mStepFull_false hr hq
          subst hf
          cases cc with
          | true =>
              obtain ⟨hw, hs⟩ := pressTok_not_lookahead hp
              rcases mStepFull_consume hr with hx | hx
              · rw [hw] at hx
                exact Bool.noConfusion hx
              · rw [hs] at hx
                exact Bool.noConfusion hx
          | false =>
              simp only [Bool.false_eq_true, if_neg, if_false]
              exact mLoop_firstWins [] p l2 mm (by simp) hp
      | cons q2 l1r =>
          simp only [List.cons_append, mLoop]
          rcases hr : mStepFull m false q (some q2) with ⟨⟨mm, pp⟩, cc⟩
          obtain ⟨hf, _, _⟩ := mStepFull_false hr hq
          subst hf
          cases cc with
          | true =>
              simp only [if_pos]
              exact mLoop_firstWins l1r p l2 mm
                (fun r hr2 => h1r r (List.mem_cons_of_mem q2 hr2)) hp
          | false =>
              simp only [Bool.false_eq_true, if_neg, if_false]
              exact mLoop_firstWins (q2 :: l1r) p l2 mm h1r hp

/-- C2: the first recognized pressure group wins.  A `Q####`/`A####` token
hitting the classifier with the `pressureFound` flag clear sets the
pressure and unit the source computes for it and raises the flag; with the
flag set, the rest of the loop never changes the pressure fields again; so
over any main body whose tokens before the first pressure token trigger no
pressure assignment, the decoded pressure is exactly the first token's, as
the two concrete both-order reports illustrate end to end. -/
theorem pressure_first_wins :
    (∀ (m : METAR) (p : Str) (next : Option Str),
        (isQTok p || isATok p) = true →
        mStepFull m false p next =
          ((mSetPressure m (pressTokVal p) (pressTokUnit p), true), false)) ∧
    (∀ (l : List Str) (m : METAR),
        (mLoop m true l).Pressure = m.Pressure ∧
        (mLoop m true l).PressureUnit = m.PressureUnit) ∧
    (∀ (l1 : List Str) (p : Str) (l2 : List Str) (m : METAR),
        (∀ q ∈ l1, stepSetsP q = false) → (isQTok p || isATok p) = true →
        (mLoop m false (l1 ++ p :: l2)).Pressure = pressTokVal p ∧
        (mLoop m false (l1 ++ p :: l2)).PressureUnit = pressTokUnit p) ∧
    ((DecodeMETAR ⟨2026, 10, 11⟩
        (str "KSFO 071756Z Q1013 A2992")).Pressure = 1013 ∧
     (DecodeMETAR ⟨2026, 10, 11⟩
        (str "KSFO 071756Z Q1013 A2992")).PressureUnit = str "hPa" ∧
     (DecodeMETAR ⟨2026, 10, 11⟩
        (str "KSFO 071756Z A2992 Q1013")).Pressure = mkRat 2992 100 ∧
     (DecodeMETAR ⟨2026, 10, 11⟩
        (str "KSFO 071756Z A2992 Q1013")).PressureUnit = str "inHg") :=
  ⟨fun m p next hp => mStepFull_set hp,
   fun l m => mLoop_true l m,
   fun l1 p l2 m h hp => mLoop_firstWins l1 p l2 m h hp,
   by decide, by decide, by decide, by decide⟩

theorem pressure_first_wins_witness :
    mStepFull {} false (str "Q0995") none =
      ((mSetPressure {} (pressTokVal (str "Q0995"))
          (pressTokUnit (str "Q0995")), true), false) ∧
    (mLoop {} false ([str "12012KT"] ++ str "A2992" :: [str "Q1013"])).Pressure =
      pressTokVal (str "A2992") ∧
    (mLoop {} true [str "Q1013"]).Pressure = METAR.Pressure {} := by
  refine ⟨pressure_first_wins.1 {} (str "Q0995") none (by decide), ?_,
    (pressure_first_wins.2.1 [str "Q1013"] {}).1⟩
  refine (pressure_first_wins.2.2.1 [str "12012KT"] (str "A2992")
    [str "Q1013"] {} ?_ (by decide)).1
  intro q hq
  simp only [List.mem_singleton] at hq
  subst hq
  decide

/-! ## PROB change groups (C7) -/

theorem parseForecastElement_header (f : Forecast) (p : Str) :
    (parseForecastElement f p).Typ = f.Typ ∧
    (parseForecastElement f p).Probability = f.Probability ∧
    (parseForecastElement f p).From = f.From ∧
    (parseForecastElement f p).To = f.To := by
  unfold parseForecastElement
  repeat' split
  all_goals exact ⟨rfl, rfl, rfl, rfl⟩

theorem consumeBody_header : ∀ (l : List Str) (f : Forecast),
    (consumeBody f l).1.Typ = f.Typ ∧
    (consumeBody f l).1.Probability = f.Probability ∧
    (consumeBody f l).1.From = f.From ∧
    (consumeBody f l).1.To = f.To
  | [], _ => ⟨rfl, rfl, rfl, rfl⟩
  | p :: r, f => by
      simp only [consumeBody]
      split
      · exact ⟨rfl, rfl, rfl, rfl⟩
      · obtain ⟨h1, h2, h3, h4⟩ := consumeBody_header r (parseForecastElement f p)
        obtain ⟨g1, g2, g3, g4⟩ := parseForecastElement_header f p
        exact ⟨h1.trans g1, h2.trans g2, h3.trans g3, h4.trans g4⟩

theorem prob_step (now : GoNow) (vFrom vTo : Int) (fuel : Nat)
    (acc : List Forecast) (rest : List Str) (part : Str) (pv : Int)
    (hp : (part = str "PROB30" ∧ pv = 30) ∨ (part = str "PROB40" ∧ pv = 40))
    (hiv : ∀ nx, rest.head? = some nx → validRegexM nx = none) :
    procGroups now vFrom vTo (fuel + 1) acc (part :: rest) =
      (let f1 : Forecast :=
        match acc.getLast? with
        | some lf => { Typ := part, Probability := pv, Raw := part,
                       From := lf.From, To := lf.To }
        | none => { Typ := part, Probability := pv, Raw := part,
                    From := vFrom, To := vTo }
       procGroups now vFrom vTo fuel (acc ++ [(consumeBody f1 rest).1])
        (consumeBody f1 rest).2) := by
  rcases hp with ⟨rfl, rfl⟩ | ⟨rfl, rfl⟩ <;>
    rcases rest with _ | ⟨nx, r2⟩ <;>
      [skip; (have hv := hiv nx rfl); skip; (have hv := hiv nx rfl)] <;>
        simp only [procGroups] <;>
          first
            | (rw [if_neg (by decide), if_neg (by decide), if_pos (by decide)]
               rfl)
            | (rw [if_neg (by decide), if_neg (by decide), if_pos (by decide)]
               rw [hv]
               rfl)

/-- C7: a `PROB30`/`PROB40` group takes its `Probability` from the
keyword's numeric suffix, and when no `DDHH/DDHH` interval token follows,
its `From`/`To` are copied from the immediately preceding decoded period
(the accumulator's last element), or from the overall `ValidFrom`/`ValidTo`
when none exists; the body consumption never changes those header fields,
as the concrete no-predecessor run and end-to-end TAF illustrate. -/
theorem prob_group_inheritance :
    (∀ (now : GoNow) (vFrom vTo : Int) (fuel : Nat) (acc : List Forecast)
        (rest : List Str) (part : Str) (pv : Int),
        (part = str "PROB30" ∧ pv = 30) ∨ (part = str "PROB40" ∧ pv = 40) →
        (∀ nx, rest.head? = some nx → validRegexM nx = none) →
        procGroups now vFrom vTo (fuel + 1) acc (part :: rest) =
          (let f1 : Forecast :=
            match acc.getLast? with
            | some lf => { Typ := part, Probability := pv, Raw := part,
                           From := lf.From, To := lf.To }
            | none => { Typ := part, Probability := pv, Raw := part,
                        From := vFrom, To := vTo }
           procGroups now vFrom vTo fuel (acc ++ [(consumeBody f1 rest).1])
            (consumeBody f1 rest).2)) ∧
    (∀ (l : List Str) (f : Forecast),
        (consumeBody f l).1.Typ = f.Typ ∧
        (consumeBody f l).1.Probability = f.Probability ∧
        (consumeBody f l).1.From = f.From ∧
        (consumeBody f l).1.To = f.To) ∧
    procGroups ⟨2026, 10, 11⟩ 100 200 1 [] [str "PROB40"] =
      [{ Typ := str "PROB40", Probability := 40, Raw := str "PROB40",
         From := 100, To := 200 }] ∧
    (let fcs := (DecodeTAF ⟨2026, 10, 11⟩ (str
        "TAF KBOS 110547Z 1106/1212 14012KT BECMG 1108/1110 21015KT PROB30 4SM -RA")).Forecasts
     fcs.length = 3 ∧ (fcs.getD 2 {}).Typ = str "PROB30" ∧
     (fcs.getD 2 {}).Probability = 30 ∧
     (fcs.getD 2 {}).From = (fcs.getD 1 {}).From ∧
     (fcs.getD 2 {}).To = (fcs.getD 1 {}).To) :=
  ⟨fun now vFrom vTo fuel acc rest part pv hp hiv =>
      prob_step now vFrom vTo fuel acc rest part pv hp hiv,
   fun l f => consumeBody_header l f,
   by decide, by decide⟩

theorem prob_group_inheritance_witness :
    procGroups ⟨2026, 10, 11⟩ 300 400 1 [] (str "PROB30" :: []) =
      (let f1 : Forecast :=
        match ([] : List Forecast).getLast? with
        | some lf => { Typ := str "PROB30", Probability := 30,
                       Raw := str "PROB30", From := lf.From, To := lf.To }
        | none => { Typ := str "PROB30", Probability := 30,
                    Raw := str "PROB30", From := 300, To := 400 }
       procGroups ⟨2026, 10, 11⟩ 300 400 0
        ([] ++ [(consumeBody f1 []).1]) (consumeBody f1 []).2) ∧
    (consumeBody { Typ := str "X", Probability := 7 } [str "4SM"]).1.Probability =
      Forecast.Probability { Typ := str "X", Probability := 7 } := by
  refine ⟨prob_group_inheritance.1 ⟨2026, 10, 11⟩ 300 400 0 [] [] (str "PROB30")
      30 (Or.inl ⟨rfl, rfl⟩) (fun nx h => Option.noConfusion h), ?_⟩
  exact (prob_group_inheritance.2.1 [str "4SM"]
    { Typ := str "X", Probability := 7 }).2.1

/-! ## Month rollover (C8) -/

/-- C8: the two month-rollover corrections run in opposite directions.
`parseTime` (METAR observation / TAF issuance) subtracts a month exactly
when the current day-of-month is *less* than the parsed day, while the TAF
`FM` start time adds a month exactly when the current day-of-month is
*greater* than the parsed day; the concrete runs show the corrected
instants landing strictly earlier resp. later. -/
theorem month_rollover_directions :
    (∀ (now : GoNow) (s : Str) (d h mi : Int),
        timeRegexM s = some (d, h, mi) →
        parseTime now s = some (if now.day < d then
          goAddMonths (goDate now.year now.month d h mi) (-1)
          else goDate now.year now.month d h mi)) ∧
    (∀ (now : GoNow) (ft : Str), ft.length = 6 →
        fmStart now ft =
          (let day := goAtoiD (ft.take 2)
           let base := goDate now.year now.month day
             (goAtoiD ((ft.drop 2).take 2)) (goAtoiD (ft.drop 4))
           if now.day > day then goAddMonths base 1 else base)) ∧
    (parseTime ⟨2026, 10, 11⟩ (str "150552Z") =
        some (goAddMonths (goDate 2026 10 15 5 52) (-1)) ∧
     goAddMonths (goDate 2026 10 15 5 52) (-1) < goDate 2026 10 15 5 52 ∧
     parseTime ⟨2026, 10, 11⟩ (str "070552Z") = some (goDate 2026 10 7 5 52)) ∧
    (fmStart ⟨2026, 10, 11⟩ (str "070500") =
        goAddMonths (goDate 2026 10 7 5 0) 1 ∧
     goDate 2026 10 7 5 0 < goAddMonths (goDate 2026 10 7 5 0) 1 ∧
     fmStart ⟨2026, 10, 11⟩ (str "150500") = goDate 2026 10 15 5 0) := by
  refine ⟨?_, ?_, by decide, by decide⟩
  · intro now s d h mi hts
    unfold parseTime
    rw [hts]
  · intro now ft hlen
    unfold fmStart
    rw [if_pos hlen]

theorem month_rollover_directions_witness :
    parseTime ⟨2026, 11, 3⟩ (str "280552Z") =
      some (if (3 : Int) < 28 then
        goAddMonths (goDate 2026 11 28 5 52) (-1)
        else goDate 2026 11 28 5 52) ∧
    fmStart ⟨2026, 11, 28⟩ (str "030500") =
      (let day := goAtoiD ((str "030500").take 2)
       let base := goDate 2026 11 day
         (goAtoiD (((str "030500").drop 2).take 2))
         (goAtoiD ((str "030500").drop 4))
       if (28 : Int) > day then goAddMonths base 1 else base) :=
  ⟨month_rollover_directions.1 ⟨2026, 11, 3⟩ (str "280552Z") 28 5 52 (by decide),
   month_rollover_directions.2.1 ⟨2026, 11, 28⟩ (str "030500") (by decide)⟩

/-! ## TAF timeline continuity (C1) -/

theorem setLastTo_ne_nil {l : List Forecast} (h : l ≠ []) (t : Int) :
    setLastTo l t ≠ [] := by
  match l, h with
  | [f], _ => exact List.cons_ne_nil _ _
  | f :: g :: r, _ => exact List.cons_ne_nil _ _

theorem setLastTo_last : ∀ (l : List Forecast) (t : Int), l ≠ [] →
    ∃ lf, (setLastTo l t).getLast? = some lf ∧ lf.To = t
  | [f], t, _ => ⟨fSetTo f t, rfl, rfl⟩
  | f :: g :: r, t, _ => by
      obtain ⟨lf, h1, h2⟩ := setLastTo_last (g :: r) t (List.cons_ne_nil g r)
      refine ⟨lf, ?_, h2⟩
      simp only [setLastTo]
      obtain ⟨x, xs, hxx⟩ :=
        List.exists_cons_of_ne_nil (setLastTo_ne_nil (List.cons_ne_nil g r) t)
      rw [hxx] at h1 ⊢
      rw [List.getLast?_cons_cons]
      exact h1

theorem setLastTo_chain : ∀ (l : List Forecast) (t : Int),
    chainB (setLastTo l t) = chainB l
  | [], _ => rfl
  | [_], _ => rfl
  | f :: g :: r, t => by
      simp only [setLastTo]
      cases r with
      | nil => simp [setLastTo, chainB, fSetTo]
      | cons g2 r2 =>
          have hrec := setLastTo_chain (g :: g2 :: r2) t
          simp only [setLastTo] at hrec
          simp only [chainB, hrec]

theorem chainB_append_one : ∀ (l : List Forecast) (f : Forecast), l ≠ [] →
    (∀ lf, l.getLast? = some lf → lf.To = f.From) →
    chainB (l ++ [f]) = chainB l
  | [g], f, _, h => by
      have := h g rfl
      simp [chainB, this]
  | g :: g2 :: r, f, _, h => by
      have hrec := chainB_append_one (g2 :: r) f (List.cons_ne_nil g2 r)
        (fun lf hl => h lf (by rw [List.getLast?_cons_cons]; exact hl))
      simp only [List.cons_append] at hrec ⊢
      simp only [chainB, hrec]

theorem baseFold_to : ∀ (l : List Str) (f : Forecast),
    (baseFold f l).To = f.To
  | [], _ => rfl
  | p :: r, f => by
      simp only [baseFold]
      split
      · exact baseFold_to r f
      · exact (baseFold_to r _).trans (parseForecastElement_header f p).2.2.2

theorem consumeBody_sfx : ∀ (l : List Str) (f : Forecast),
    (consumeBody f l).2 <:+ l
  | [], _ => List.nil_suffix
  | p :: r, f => by
      simp only [consumeBody]
      split
      · exact List.suffix_refl _
      · exact (consumeBody_sfx r _).trans (List.suffix_cons p r)

theorem lastToZero_concat (l : List Forecast) (f : Forecast)
    (h : f.To = goZero) : lastToZero (l ++ [f]) = true := by
  unfold lastToZero
  rw [List.getLast?_concat]
  simp [h]

theorem procGroups_chain (now : GoNow) (vFrom vTo : Int) :
    ∀ (fuel : Nat) (toks : List Str) (acc : List Forecast),
      (∀ tok ∈ toks, isChangeKw tok = true →
        tok = str "FM" ∨ goStarts tok (str "FM") = true) →
      acc ≠ [] → lastToZero acc = true → chainB acc = true →
      procGroups now vFrom vTo fuel acc toks ≠ [] ∧
        lastToZero (procGroups now vFrom vTo fuel acc toks) = true ∧
        chainB (procGroups now vFrom vTo fuel acc toks) = true
  | fuel, [], acc, _, hne, hlz, hch => by
      cases fuel <;> exact ⟨hne, hlz, hch⟩
  | 0, _ :: _, acc, _, hne, hlz, hch => ⟨hne, hlz, hch⟩
  | fuel + 1, part :: rest, acc, H, hne, hlz, hch => by
      have Hr : ∀ tok ∈ rest, isChangeKw tok = true →
          tok = str "FM" ∨ goStarts tok (str "FM") = true :=
        fun tok ht => H tok (List.mem_cons_of_mem part ht)
      have hcond : (!acc.isEmpty && lastToZero acc) = true := by
        rw [hlz]
        rcases acc with _ | ⟨a, as⟩
        · exact absurd rfl hne
        · rfl
      have main : ∀ (ft1 : Str) (ft2 : List Str), ft2 <:+ rest →
          (let f0 : Forecast := { Typ := str "FM", Raw := part, From := fmStart now ft1 }
           let acc2 := setLastTo acc (fmStart now ft1) ++ [(consumeBody f0 ft2).1]
           let tk2 := (consumeBody f0 ft2).2
           procGroups now vFrom vTo fuel acc2 tk2 ≠ [] ∧
             lastToZero (procGroups now vFrom vTo fuel acc2 tk2) = true ∧
             chainB (procGroups now vFrom vTo fuel acc2 tk2) = true) := by
        intro ft1 ft2 hsfx
        set fm := fmStart now ft1 with hfm
        set f0 : Forecast := { Typ := str "FM", Raw := part, From := fm } with hf0
        have hTo : (consumeBody f0 ft2).1.To = goZero :=
          (consumeBody_header ft2 f0).2.2.2
        have hFrom : (consumeBody f0 ft2).1.From = fm :=
          (consumeBody_header ft2 f0).2.2.1
        have hsl := setLastTo_ne_nil hne fm
        refine procGroups_chain now vFrom vTo fuel _ _
          (fun tok ht => Hr tok (hsfx.subset
            ((consumeBody_sfx ft2 f0).subset ht))) ?_ ?_ ?_
        · intro hx
          rcases List.append_eq_nil.1 hx with ⟨_, h2⟩
          exact List.cons_ne_nil _ _ h2
        · exact lastToZero_concat _ _ hTo
        · rw [chainB_append_one _ _ hsl ?_, setLastTo_chain]
          · exact hch
          · intro lf hl
            obtain ⟨lf0, hl0, hTo0⟩ := setLastTo_last acc fm hne
            rw [hl0] at hl
            injection hl with hlf
            rw [← hlf, hTo0, hFrom]
      by_cases hfm : (decide (part = str "FM") || goStarts part (str "FM")) = true
      · simp only [procGroups]
        rw [if_pos hfm, if_pos hcond]
        by_cases hft : (decide (part = str "FM") && !rest.isEmpty) = true
        · rw [if_pos hft]
          exact main _ _ (List.tail_suffix rest)
        · rw [if_neg hft]
          exact main _ _ (List.suffix_refl rest)
      · by_cases hbt :
            (decide (part = str "BECMG") || decide (part = str "TEMPO")) = true
        · exfalso
          simp only [Bool.or_eq_true, decide_eq_true_eq] at hbt
          rcases hbt with rfl | rfl <;>
            rcases H _ (List.mem_cons_self _ _) (by decide) with hx | hx <;>
              exact absurd hx (by decide)
        · by_cases hpr : goStarts part (str "PROB") = true
          · exfalso
            have hck : isChangeKw part = true := by
              unfold isChangeKw
              rw [hpr]
              simp
            rcases H part (List.mem_cons_self part rest) hck with hx | hx
            · exact hfm (by simp [hx])
            · exact hfm (by rw [hx]; simp)
          · simp only [procGroups]
            rw [if_neg hfm, if_neg hbt, if_neg hpr]
            exact procGroups_chain now vFrom vTo fuel rest acc Hr hne hlz hch

theorem timeline_assemble (now : GoNow) (vF vT : Int) (b : Forecast)
    (toks : List Str) (hb : b.To = goZero)
    (H : ∀ tok ∈ toks, isChangeKw tok = true →
      tok = str "FM" ∨ goStarts tok (str "FM") = true) :
    timelineB
      (if !(procGroups now vF vT toks.length [b] toks).isEmpty &&
          lastToZero (procGroups now vF vT toks.length [b] toks) then
        setLastTo (procGroups now vF vT toks.length [b] toks) vT
       else procGroups now vF vT toks.length [b] toks) vT = true := by
  have hg : ([b] : List Forecast).getLast? = some b := rfl
  have hlz1 : lastToZero [b] = true := by
    unfold lastToZero
    rw [hg]
    simp [hb]
  obtain ⟨hne2, hlz2, hch2⟩ := procGroups_chain now vF vT toks.length toks [b]
    H (List.cons_ne_nil b []) hlz1 rfl
  split
  · unfold timelineB
    rw [setLastTo_chain, hch2]
    obtain ⟨lf, hl, hTo⟩ := setLastTo_last _ vT hne2
    rw [hl]
    simp [hTo]
  · rename_i hcond
    exfalso
    apply hcond
    rw [hlz2]
    rcases hx : procGroups now vF vT toks.length [b] toks with _ | _
    · exact absurd hx hne2
    · rfl


/-- C1 counterexample: a TAF whose only change group is a `BECMG` with an
explicit interval decodes to two periods whose timeline is *not*
continuous — the base period's `To` is never back-filled with the `BECMG`
period's `From` (only `FM` groups back-fill), so the decoded timeline
breaks. -/
theorem taf_timeline_counterexample :
    (DecodeTAF ⟨2026, 10, 11⟩ (str
      "KBOS 110547Z 1106/1212 14012KT BECMG 1108/1110 21015KT")).Forecasts.length
      = 2 ∧
    timelineB (DecodeTAF ⟨2026, 10, 11⟩ (str
        "KBOS 110547Z 1106/1212 14012KT BECMG 1108/1110 21015KT")).Forecasts
      (DecodeTAF ⟨2026, 10, 11⟩ (str
        "KBOS 110547Z 1106/1212 14012KT BECMG 1108/1110 21015KT")).ValidTo =
      false := by
  exact ⟨by decide, by decide⟩

/-- C1 (amended): timeline continuity holds for every TAF whose change
keywords are all `FM` forms.  Each `FM` group back-fills the previous
period's open `To` with its own `From`, and the final back-fill closes the
last period at `ValidTo`, so the decoded forecast list is a continuous
chain; `BECMG`/`TEMPO`/`PROB` groups do not back-fill (see the
counterexample), so the spec's unconditional invariant fails. -/
theorem taf_timeline_fm_only (now : GoNow) (raw : Str)
    (hFM : ∀ tok ∈ goFields (cleanRaw raw), isChangeKw tok = true →
      tok = str "FM" ∨ goStarts tok (str "FM") = true) :
    timelineB (DecodeTAF now raw).Forecasts (DecodeTAF now raw).ValidTo =
      true := by
  simp only [DecodeTAF]
  split
  · rfl
  · split <;>
      exact timeline_assemble now _ _ _ _
        (by rw [baseFold_to]) (fun tok ht => hFM tok (List.mem_of_mem_drop ht))

theorem taf_timeline_fm_only_witness :
    timelineB (DecodeTAF ⟨2026, 10, 11⟩ (str
        "TAF KBOS 110547Z 1106/1212 14012KT FM110800 21015KT FM111000 32008KT")).Forecasts
      (DecodeTAF ⟨2026, 10, 11⟩ (str
        "TAF KBOS 110547Z 1106/1212 14012KT FM110800 21015KT FM111000 32008KT")).ValidTo =
      true :=
  taf_timeline_fm_only ⟨2026, 10, 11⟩ (str
    "TAF KBOS 110547Z 1106/1212 14012KT FM110800 21015KT FM111000 32008KT")
    (by decide)
